import Mathlib

/-!
Verification model of the Intelligent Log Analysis and Anomaly Detection Tool.

This file gives a shallow embedding, in Lean 4, of the parts of the C++
sources that the checked claims are about:

* the line parser (src/input/LogParser.cpp, src/utils/TimeUtils.cpp),
* the TimeWindowAnalyzer (src/analysis/TimeWindowAnalyzer.cpp),
* the BurstPatternDetector (src/anomaly/BurstPatternDetector.cpp),
* the IpFrequencyDetector (src/anomaly/IpFrequencyDetector.cpp),
* the SpikeDetector (src/anomaly/SpikeDetector.cpp),
* the StatisticalDetector (src/anomaly/StatisticalDetector.cpp),
* the FrequencyAnalyzer and PatternAnalyzer (src/analysis),
* the driver loop of src/main.cpp and the ReportGenerator
  (src/report/ReportGenerator.cpp).

Modelling conventions, used throughout:

* Timestamps (std::chrono::system_clock::time_point at second resolution)
  are seconds since the Unix epoch, as Int.  mktime is modelled in UTC;
  the code calls mktime, which uses the host's local time zone, so the
  model fixes a time zone.  All gap and window arithmetic is offset
  invariant.
* C++ double is modelled as the exact rationals (Rat).  Rounding of
  IEEE doubles is ignored; all the compared thresholds in the claims
  are far from representation boundaries.
* std::string is modelled as List Char (ASCII inputs); structures keep
  String where convenient.  C++ unordered_map is modelled as an
  association list in insertion order (libstdc++ iteration order is a
  deterministic function of the operation sequence), std::map as an
  association list kept sorted by key.
* Each model definition carries a comment naming the C++ function it
  embeds.
-/

/-! Batteries marks the rational arithmetic operations irreducible,
which blocks rfl/decide evaluation of the model; restore the default
reducibility for them (proof-irrelevant: the kernel ignores
reducibility). -/
set_option allowUnsafeReducibility true in
attribute [semireducible] Rat.mul Rat.add Rat.div Rat.sub Rat.neg Rat.inv

/-! ### Character helpers (C locale, ASCII) -/

/-- Model of std::isspace in the C locale. -/
def isSpaceChar (c : Char) : Bool :=
  c = ' ' || c = '\t' || c = '\n' || c = Char.ofNat 11 || c = Char.ofNat 12 || c = '\r'

/-- Model of std::toupper in the C locale (ASCII). -/
def toUpperChar (c : Char) : Char :=
  if 'a' ≤ c && c ≤ 'z' then Char.ofNat (c.toNat - 32) else c

/-- Model of std::tolower in the C locale (ASCII). -/
def toLowerChar (c : Char) : Char :=
  if 'A' ≤ c && c ≤ 'Z' then Char.ofNat (c.toNat + 32) else c

def isDigitChar (c : Char) : Bool := '0' ≤ c && c ≤ '9'

/-- ECMAScript regex word character [A-Za-z0-9_]. -/
def isWordChar (c : Char) : Bool :=
  isDigitChar c || ('a' ≤ c && c ≤ 'z') || ('A' ≤ c && c ≤ 'Z') || c = '_'

/-- Hex digit, case-insensitive (for the [0-9a-f]{8,} icase regex). -/
def isHexChar (c : Char) : Bool :=
  isDigitChar c || ('a' ≤ c && c ≤ 'f') || ('A' ≤ c && c ≤ 'F')

/-- The character { (written via its code so it never appears as text). -/
def lbraceChar : Char := Char.ofNat 123

/-- The character } (written via its code so it never appears as text). -/
def rbraceChar : Char := Char.ofNat 125

/-! ### String helpers (LogTool::Utils, include/utils/StringUtils.hpp) -/

/-- Model of Utils::ltrim. -/
def ltrimChars (s : List Char) : List Char := s.dropWhile isSpaceChar

/-- Model of Utils::rtrim. -/
def rtrimChars (s : List Char) : List Char :=
  (s.reverse.dropWhile isSpaceChar).reverse

/-- Model of Utils::trim (and of LogParser::trimSv, which trims the same
character class from both ends). -/
def trimChars (s : List Char) : List Char := rtrimChars (ltrimChars s)

/-- Model of Utils::toUpper. -/
def upperChars (s : List Char) : List Char := s.map toUpperChar

/-- Model of Utils::toLower. -/
def lowerChars (s : List Char) : List Char := s.map toLowerChar

/-- Position of the first occurrence of a substring
(std::string_view::find).  Searching for the empty needle yields 0. -/
def firstSubIdx (hay needle : List Char) : Option Nat :=
  match hay with
  | [] => if needle = [] then some 0 else none
  | _ :: t =>
    if needle.isPrefixOf hay then some 0
    else (firstSubIdx t needle).map (· + 1)

/-- Model of Utils::contains (empty needle is contained). -/
def containsSub (hay needle : List Char) : Bool := (firstSubIdx hay needle).isSome

/-- Model of Utils::split on a single character delimiter
(include/utils/StringUtils.hpp): with keepEmpty every segment between
delimiters is emitted, including leading and trailing empty ones;
without it only the nonempty segments are. -/
def splitChars (sv : List Char) (delim : Char) (keepEmpty : Bool) : List (List Char) :=
  let parts := sv.splitOn delim
  if keepEmpty then parts else parts.filter (· ≠ [])

/-- Model of Utils::splitAndTrim with keepEmpty = false (used by
PatternAnalyzer::createSignature): split, trim each token, drop the
empty ones. -/
def splitAndTrimChars (sv : List Char) (delim : Char) : List (List Char) :=
  ((splitChars sv delim false).map trimChars).filter (· ≠ [])

/-- Helper for wsTokens: cur is the current token, reversed. -/
def wsTokensGo (cur : List Char) : List Char → List (List Char)
  | [] => if cur = [] then [] else [cur.reverse]
  | c :: rest =>
    if isSpaceChar c then
      if cur = [] then wsTokensGo [] rest else cur.reverse :: wsTokensGo [] rest
    else wsTokensGo (c :: cur) rest

/-- Tokenisation by operator>> on an istringstream: whitespace separated
maximal nonempty tokens (used by FrequencyAnalyzer::hashMessage). -/
def wsTokens (s : List Char) : List (List Char) := wsTokensGo [] s

/-! ### Time (src/utils/TimeUtils.cpp) -/

/-- Days from the civil date (y, m, d) to 1970-01-01 (Howard Hinnant's
days_from_civil algorithm, used here to model mktime in UTC). -/
def daysFromCivil (y m d : Int) : Int :=
  let y' := y - (if m ≤ 2 then 1 else 0)
  let era := Int.fdiv y' 400
  let yoe := y' - era * 400
  let mp := m + (if m > 2 then -3 else 9)
  let doy := Int.fdiv (153 * mp + 2) 5 + d - 1
  let doe := yoe * 365 + Int.fdiv yoe 4 - Int.fdiv yoe 100 + doy
  era * 146097 + doe - 719468

/-- Seconds since the epoch of a tm record, including mktime's
normalisation of out-of-range fields (months roll into years; days,
hours, minutes and seconds are plain offsets). -/
def mkCivilSecs (year mon day hour minute sec : Int) : Int :=
  let mT := mon - 1
  let yAdj := year + Int.fdiv mT 12
  let mAdj := Int.emod mT 12
  (daysFromCivil yAdj (mAdj + 1) 1 + (day - 1)) * 86400
    + hour * 3600 + minute * 60 + sec

/-- Model of the internal parseIntField of TimeUtils.cpp: digits only,
no sign, value by positional accumulation; none models the thrown
std::invalid_argument. -/
def parseIntField (sv : List Char) : Option Nat :=
  if sv.all isDigitChar then
    some (sv.foldl (fun a c => a * 10 + (c.toNat - 48)) 0)
  else none

/-- Field of a fixed-position substring, sv.substr(pos, len). -/
def fieldAt (sv : List Char) (pos len : Nat) : List Char := (sv.drop pos).take len

/-- Model of Utils::parseTimestamp: reads YYYY-MM-DD HH:MM:SS from the
first 19 characters.  Note the C++ only reads the six digit fields; the
separator positions 4, 7, 10, 13, 16 are never examined.  mktime is
modelled in UTC and modelled as always representable. -/
def parseTimestamp (sv : List Char) : Option Int :=
  if sv.length < 19 then none
  else
    match parseIntField (fieldAt sv 0 4), parseIntField (fieldAt sv 5 2),
          parseIntField (fieldAt sv 8 2), parseIntField (fieldAt sv 11 2),
          parseIntField (fieldAt sv 14 2), parseIntField (fieldAt sv 17 2) with
    | some y, some mo, some d, some h, some mi, some s =>
      some (mkCivilSecs y mo d h mi s)
    | _, _, _, _, _, _ => none

/-! ### Core data model (include/core/LogEntry.hpp) -/

/-- Model of core::LogLevel. -/
inductive LogLevel where
  | trace | debug | info | warn | error | critical | unknown
deriving DecidableEq, Repr

/-- Numeric value of the LogLevel enum (Trace = 0 .. Unknown = 6). -/
def levelOrd : LogLevel → Nat
  | .trace => 0
  | .debug => 1
  | .info => 2
  | .warn => 3
  | .error => 4
  | .critical => 5
  | .unknown => 6

/-- Model of core::LogEntry. -/
structure LogEntry where
  timestamp : Int
  level : LogLevel
  source : Option String
  message : String
  rawLine : Option String := none
deriving DecidableEq, Repr

/-! ### Text-line extraction (src/input/LogParser.cpp) -/

/-- Model of the anonymous-namespace isReasonableTime of LogParser.cpp
(defined in the source but never called there: it is dead code). -/
def isReasonableTime (t : Int) : Bool := t ≥ 946684800

/-- Model of LogParser::extractTimestamp: first 19 chars of the
left-trimmed line must parse. -/
def extractTimestamp (line : List Char) : Option Int :=
  let p := ltrimChars line
  if p.length < 19 then none
  else parseTimestamp (p.take 19)

/-- The level token table of LogParser::extractLevel, in source order. -/
def levelMap : List (List Char × LogLevel) :=
  [("TRACE".data, .trace), ("DEBUG".data, .debug), ("INFO".data, .info),
   ("WARN".data, .warn), ("WARNING".data, .warn), ("ERROR".data, .error),
   ("FATAL".data, .critical), ("CRITICAL".data, .critical)]

/-- Model of LogParser::extractLevel: first table entry contained in the
upper-cased line; Unknown (still an engaged optional) when none is. -/
def extractLevel (line : List Char) : Option LogLevel :=
  let upperLine := upperChars line
  some ((levelMap.find? (fun p => containsSub upperLine p.1)).elim LogLevel.unknown (·.2))

/-- Bracket fallback of LogParser::extractSource: token between the
first [ and the following ]. -/
def extractSourceBracket (t : List Char) : Option String :=
  match t.findIdx? (· = '[') with
  | none => none
  | some s =>
    let rest := t.drop (s + 1)
    match rest.findIdx? (· = ']') with
    | none => none
    | some e => some (String.mk (rest.take e))

/-- Model of LogParser::extractSource: the right-trimmed token before
the first colon when it holds no space, else the bracketed token. -/
def extractSource (line : List Char) : Option String :=
  let t := trimChars line
  match t.findIdx? (· = ':') with
  | some i =>
    let ps := rtrimChars (t.take i)
    if ps.all (· ≠ ' ') then some (String.mk ps)
    else extractSourceBracket t
  | none => extractSourceBracket t

/-- The final empty-message guard of LogParser::extractMessage: an empty
joined message is a parse failure. -/
def someIfNonempty (msg : List Char) : Option String :=
  if msg = [] then none else some (String.mk msg)

/-- Model of LogParser::extractMessage: drop the ~20-char timestamp
prefix, split on single spaces keeping empties, join the words after the
first two; an empty result is a failure (someIfNonempty). -/
def extractMessage (line : List Char) : Option String :=
  let r0 := trimChars line
  let r1 := if r0.length > 20 then r0.drop 20 else r0
  let r := trimChars r1
  let words := splitChars r ' ' true
  someIfNonempty (if words.length > 2 then List.intercalate [' '] (words.drop 2) else [])

/-- Model of LogParser::tryParsePattern.  The pattern argument of the
C++ function is unused, so the four attempts of parseLineDetailed's
pattern loop are identical and are modelled as a single call.  A missing
source becomes the engaged optional "unknown". -/
def tryParsePattern (line : List Char) : Option LogEntry :=
  match extractTimestamp line, extractLevel line, extractMessage line with
  | some ts, some lvl, some msg =>
    some { timestamp := ts, level := lvl,
           source := some ((extractSource line).getD "unknown"),
           message := msg, rawLine := some (String.mk line) }
  | _, _, _ => none

/-! ### JSON-line extraction (src/input/LogParser.cpp) -/

/-- String-value scan of LogParser::extractJsonRaw: reads to the closing
quote, with the basic escape handling of the source (a backslash copies
the next character verbatim). -/
def jsonStringScan : List Char → List Char
  | [] => []
  | c :: rest =>
    if c = '\\' then
      match rest with
      | [] => []
      | e :: r2 => e :: jsonStringScan r2
    else if c = '"' then []
    else c :: jsonStringScan rest

/-- Model of LogParser::extractJsonRaw (extractJsonString is a direct
alias in the source). -/
def extractJsonString (json : List Char) (key : List Char) : Option (List Char) :=
  let needle := '"' :: (key ++ ['"'])
  match firstSubIdx json needle with
  | none => none
  | some pos =>
    let afterKey := json.drop (pos + needle.length)
    match afterKey.findIdx? (· = ':') with
    | none => none
    | some ci =>
      let rest := (afterKey.drop (ci + 1)).dropWhile isSpaceChar
      match rest with
      | [] => none
      | c :: tail =>
        if c = '"' then some (jsonStringScan tail)
        else some (trimChars (rest.takeWhile (fun ch => ch ≠ ',' && ch ≠ rbraceChar)))

/-- Level mapping of LogParser::tryParseJsonLine, in source order. -/
def jsonLevelOf (lvlStr : List Char) : LogLevel :=
  let u := upperChars lvlStr
  if containsSub u "TRACE".data then .trace
  else if containsSub u "DEBUG".data then .debug
  else if containsSub u "INFO".data then .info
  else if containsSub u "WARN".data then .warn
  else if containsSub u "ERROR".data then .error
  else if containsSub u "CRIT".data || containsSub u "FATAL".data then .critical
  else .unknown

/-- Timestamp acceptance of LogParser::tryParseJsonLine: first the raw
19-char prefix, then the same prefix with T replaced by a space. -/
def jsonTimestampOf (tsv : List Char) : Option Int :=
  let t1 := if tsv.length ≥ 19 then parseTimestamp (tsv.take 19) else none
  match t1 with
  | some t => some t
  | none =>
    if tsv.length ≥ 19 then
      parseTimestamp ((tsv.take 19).map (fun c => if c = 'T' then ' ' else c))
    else none

/-- First-hit key lookup (the if-not-found-try-next chains of
tryParseJsonLine). -/
def orTry (a b : Option (List Char)) : Option (List Char) :=
  match a with
  | some v => some v
  | none => b

/-- The timestamp/time/@timestamp lookup chain of tryParseJsonLine. -/
def jsonTsStr (line : List Char) : Option (List Char) :=
  orTry (extractJsonString line "timestamp".data)
    (orTry (extractJsonString line "time".data)
      (extractJsonString line "@timestamp".data))

/-- The level/severity lookup chain of tryParseJsonLine. -/
def jsonLvlStr (line : List Char) : Option (List Char) :=
  orTry (extractJsonString line "level".data) (extractJsonString line "severity".data)

/-- The message/msg lookup chain of tryParseJsonLine. -/
def jsonMsgStr (line : List Char) : Option (List Char) :=
  orTry (extractJsonString line "message".data) (extractJsonString line "msg".data)

/-- The service/component/source lookup chain of tryParseJsonLine. -/
def jsonSrcStr (line : List Char) : Option (List Char) :=
  orTry (extractJsonString line "service".data)
    (orTry (extractJsonString line "component".data)
      (extractJsonString line "source".data))

/-- Model of LogParser::tryParseJsonLine; the second component is the
error string written through errOut when the first is none. -/
def tryParseJsonLine (line : List Char) : Option LogEntry × String :=
  match jsonTsStr line, jsonLvlStr line, jsonMsgStr line with
  | some tsv, some lvlv, some msgv =>
    match jsonTimestampOf tsv with
    | none => (none, "Invalid timestamp format")
    | some ts =>
      (some { timestamp := ts, level := jsonLevelOf lvlv,
              source := some (((jsonSrcStr line).map String.mk).getD "unknown"),
              message := String.mk msgv, rawLine := some (String.mk line) }, "")
  | _, _, _ =>
    (none, "JSON missing required fields:"
      ++ (if (jsonTsStr line).isSome then "" else " timestamp")
      ++ (if (jsonLvlStr line).isSome then "" else " level")
      ++ (if (jsonMsgStr line).isSome then "" else " message"))

/-! ### parseLineDetailed (src/input/LogParser.cpp) -/

/-- Model of LogParser::ParseResult. -/
structure ParseResult where
  entry : Option LogEntry := none
  malformed : Bool := false
  error : String := ""
  wasJson : Bool := false
deriving DecidableEq, Repr

/-- Model of LogParser::parseLineDetailed. -/
def parseLineDetailed (rawLine : String) : ParseResult :=
  let trimmed := trimChars rawLine.data
  if trimmed = [] then { entry := none, malformed := true, error := "Empty line" }
  else if trimmed.head? = some lbraceChar then
    match tryParseJsonLine trimmed with
    | (some e, _) => { entry := some e, wasJson := true }
    | (none, err) =>
      { entry := none, malformed := true,
        error := if err = "" then "Failed to parse JSON log line" else err,
        wasJson := true }
  else
    match tryParsePattern trimmed with
    | some e => { entry := some e }
    | none => { entry := none, malformed := true, error := "No matching pattern" }

/-! ### Association-list models of the C++ map containers -/

/-- Lookup in an insertion-ordered association list (unordered_map
model). -/
def alistLookup {β : Type} (l : List (String × β)) (k : String) : Option β :=
  (l.find? (·.1 = k)).map (·.2)

/-- Write through operator[]: replace in place, or append a new key at
the end (libstdc++ iteration order is modelled as insertion order). -/
def alistSet {β : Type} : List (String × β) → String → β → List (String × β)
  | [], k, v => [(k, v)]
  | p :: rest, k, v => if p.1 = k then (k, v) :: rest else p :: alistSet rest k v

/-- Increment of a counter map entry, default-constructing 0. -/
def alistBump (l : List (String × Nat)) (k : String) : List (String × Nat) :=
  alistSet l k ((alistLookup l k).getD 0 + 1)

/-- Erase a key. -/
def alistErase {β : Type} (l : List (String × β)) (k : String) : List (String × β) :=
  l.filter (·.1 ≠ k)

/-! ### Structured anomaly descriptions

The C++ code renders anomaly descriptions as strings, formatting doubles
through ostream.  The model keeps each description as a constructor
carrying the exact data the string is built from; the rendered string is
a function of this value, so list equality and inequality of reports
transfer.  Rational fields stand for the corresponding doubles. -/

inductive Descr where
  | empty : Descr
  | malformedLine (err : String) : Descr
  | spikeDetected (source : String) (currentCount : Nat) (shortWindowSecs : Int)
      (spikeRatio rateOfChange : ℚ) : Descr
  | statOutlier (source : String) (zSignedSq : ℚ) (mean variance : ℚ) : Descr
  | burstRepetition (repeats : Nat) (windowSecs : Int) : Descr
  | rareIpSeen (count : Nat) (ip : String) : Descr
  | freqSourceSpike (source : String) (count : Nat) (ratio : ℚ) : Descr
  | freqRareMessage (msgHash : String) (count : Nat) : Descr
  | patternNovel (sigPrefix : String) : Descr
  | patternNewSeq (sig : String) : Descr
  | twErrorSpike (errorRate : ℚ) (windowStart windowEnd : Int) : Descr
  | twBurst (totalEvents : Nat) (windowSizeSecs : Int) : Descr
  | twSilence (gapSecs : Int) : Descr
deriving DecidableEq, Repr

/-! ### TimeWindowAnalyzer (src/analysis/TimeWindowAnalyzer.cpp) -/

/-- Model of TimeWindowAnalyzer::TimedEvent. -/
structure TimedEvent where
  timestamp : Int
  level : LogLevel
  source : String
deriving DecidableEq, Repr

/-- Model of TimeWindowAnalyzer::TimeBucket.  The field stop models the
C++ member end (a Lean keyword). -/
structure TimeBucket where
  start : Int := 0
  stop : Int := 0
  events : List TimedEvent := []
  sourceCounts : List (String × Nat) := []
deriving DecidableEq, Repr

/-- Configuration members of TimeWindowAnalyzer, with the defaults of
the header. -/
structure TWConfig where
  windowSize : Int := 60
  errorRateThreshold : ℚ := 1/2
  burstThreshold : Nat := 100
  silenceThreshold : Int := 300
  maxHistoryWindows : Nat := 12
deriving DecidableEq, Repr

/-- Mutable state of TimeWindowAnalyzer. -/
structure TWState where
  initialized : Bool := false
  cur : TimeBucket := {}
  history : List TimeBucket := []
deriving DecidableEq, Repr

/-- One iteration of the advance loop of addEventUnlocked: the current
window is saved to history even when empty (the source comments this is
meant to preserve gaps for silence detection), history is bounded, and
the window advances by one step. -/
def twPushWindow (cfg : TWConfig) (st : TWState) : TWState :=
  let hist := st.history ++ [st.cur]
  let hist := if hist.length > cfg.maxHistoryWindows then hist.drop 1 else hist
  { st with history := hist,
            cur := { start := st.cur.stop, stop := st.cur.stop + cfg.windowSize } }

/-- The while loop of addEventUnlocked advancing windows until the
timestamp fits, with an explicit structural fuel so that it computes in
the kernel.  Each iteration moves cur.stop up by windowSize, at least 1
when positive, so the initial fuel (ts + 1 - cur.stop) bounds the
iteration count and the loop always exits on its real condition before
the fuel runs out.  The 0 < windowSize guard makes the loop total; with
a nonpositive window size the C++ loop would not terminate. -/
def twAdvanceGo (cfg : TWConfig) (ts : Int) : Nat → TWState → TWState
  | 0, st => st
  | fuel + 1, st =>
    if st.cur.stop ≤ ts ∧ 0 < cfg.windowSize then
      twAdvanceGo cfg ts fuel (twPushWindow cfg st)
    else st

/-- The advance loop at its sufficient fuel. -/
def twAdvanceLoop (cfg : TWConfig) (ts : Int) (st : TWState) : TWState :=
  twAdvanceGo cfg ts ((ts + 1 - st.cur.stop).toNat) st

/-- Model of TimeWindowAnalyzer::evictOldEvents.  In every reachable
bucket the popped event's source key is present with a positive count;
the model decrements over Nat and erases at zero exactly as the code
does. -/
def twEvictOld (start : Int) (counts : List (String × Nat)) :
    List TimedEvent → List TimedEvent × List (String × Nat)
  | [] => ([], counts)
  | ev :: rest =>
    if ev.timestamp < start then
      let n := (alistLookup counts ev.source).getD 0 - 1
      let counts' := if n = 0 then alistErase (alistSet counts ev.source n) ev.source
                     else alistSet counts ev.source n
      twEvictOld start counts' rest
    else (ev :: rest, counts)

/-- Model of TimeWindowAnalyzer::addEventUnlocked (addEntry without the
lock). -/
def twAddEntry (cfg : TWConfig) (st : TWState) (e : LogEntry) : TWState :=
  let ts := e.timestamp
  let st :=
    if ¬ st.initialized then
      { st with initialized := true, cur := { start := ts, stop := ts + cfg.windowSize } }
    else st
  let st := twAdvanceLoop cfg ts st
  if ts < st.cur.start then st
  else
    let te : TimedEvent := { timestamp := e.timestamp, level := e.level,
                             source := e.source.getD "" }
    let evs := st.cur.events ++ [te]
    let cnts := alistBump st.cur.sourceCounts (e.source.getD "")
    let (evs', cnts') := twEvictOld st.cur.start cnts evs
    { st with cur := { st.cur with events := evs', sourceCounts := cnts' } }

/-- Model of TimeWindowAnalyzer::WindowStats. -/
structure TWWindowStats where
  totalEvents : Nat := 0
  errorEvents : Nat := 0
  errorRate : ℚ := 0
  eventsBySource : List (String × Nat) := []
  windowStart : Int := 0
  windowEnd : Int := 0
deriving DecidableEq, Repr

/-- Model of TimeWindowAnalyzer::calculateStats. -/
def twCalculateStats (b : TimeBucket) : TWWindowStats :=
  let errs := (b.events.filter (fun ev => ev.level = .error || ev.level = .critical)).length
  { totalEvents := b.events.length, errorEvents := errs,
    errorRate := if b.events.length > 0 then (errs : ℚ) / (b.events.length : ℚ) else 0,
    eventsBySource := b.sourceCounts,
    windowStart := b.start, windowEnd := b.stop }

/-- Model of TimeWindowAnalyzer::Anomaly; a score of 0 (the default)
means no anomaly, exactly as in detectAnomalies. -/
structure TWAnomaly where
  descr : Descr := .empty
  score : ℚ := 0
  stats : TWWindowStats := {}
deriving DecidableEq, Repr

/-- Model of TimeWindowAnalyzer::checkErrorSpike. -/
def twCheckErrorSpike (cfg : TWConfig) (b : TimeBucket) : TWAnomaly :=
  let stats := twCalculateStats b
  if stats.errorRate > cfg.errorRateThreshold then
    { descr := .twErrorSpike stats.errorRate stats.windowStart stats.windowEnd,
      score := min 1 (stats.errorRate * 2), stats := stats }
  else {}

/-- Model of TimeWindowAnalyzer::checkBurst. -/
def twCheckBurst (cfg : TWConfig) (b : TimeBucket) : TWAnomaly :=
  let stats := twCalculateStats b
  if stats.totalEvents > cfg.burstThreshold then
    { descr := .twBurst stats.totalEvents cfg.windowSize,
      score := min 1 ((stats.totalEvents : ℚ) / (cfg.burstThreshold : ℚ)),
      stats := stats }
  else {}

/-- Model of TimeWindowAnalyzer::checkSilence: the gap is measured from
the end of the newest history bucket to the start of the given bucket. -/
def twCheckSilence (cfg : TWConfig) (st : TWState) (b : TimeBucket) : TWAnomaly :=
  match st.history.getLast? with
  | none => {}
  | some prev =>
    let gap := b.start - prev.stop
    if gap > cfg.silenceThreshold then
      { descr := .twSilence gap,
        score := min 1 ((gap : ℚ) / (cfg.silenceThreshold : ℚ)) }
    else {}

/-- Model of TimeWindowAnalyzer::detectAnomalies. -/
def twDetectAnomalies (cfg : TWConfig) (st : TWState) : List TWAnomaly :=
  let keep := fun (a : TWAnomaly) => if a.score > 0 then [a] else []
  keep (twCheckErrorSpike cfg st.cur)
    ++ keep (twCheckBurst cfg st.cur)
    ++ (st.history.map (fun w => keep (twCheckErrorSpike cfg w) ++ keep (twCheckBurst cfg w))).flatten
    ++ (if st.history ≠ [] then keep (twCheckSilence cfg st st.cur) else [])

/-! ### BurstPatternDetector (src/anomaly/BurstPatternDetector.cpp) -/

/-- Emit one maximal hex run: runs of length at least 8 become the
literal id tag (regex [0-9a-f]{8,}, icase, greedy, leftmost). -/
def hexFlush (run : List Char) : List Char :=
  if run.length ≥ 8 then "<id>".data else run.reverse

/-- Scan for normalizeMessage's hex replacement; run is the current hex
run, reversed. -/
def hexGo (run : List Char) : List Char → List Char
  | [] => hexFlush run
  | c :: rest =>
    if isHexChar c then hexGo (c :: run) rest
    else hexFlush run ++ c :: hexGo [] rest

/-- Replacement of [0-9a-f]{8,} (icase) by the id tag, as regex_replace
does: each maximal hex run of length at least 8 is replaced whole. -/
def replaceHexRuns (s : List Char) : List Char := hexGo [] s

/-- Emit one maximal digit run for the number replacement: it is
replaced exactly when bounded by word boundaries on both sides. -/
def numFlush (prevWord : Bool) (run : List Char) (afterOk : Bool) : List Char :=
  if run = [] then []
  else if ¬ prevWord && afterOk then "<n>".data else run.reverse

/-- Scan for normalizeMessage's number replacement; prevWord says
whether the character before the current position (or run) is a word
character; run is the current digit run, reversed. -/
def numGo (prevWord : Bool) (run : List Char) : List Char → List Char
  | [] => numFlush prevWord run true
  | c :: rest =>
    if isDigitChar c then numGo prevWord (c :: run) rest
    else numFlush prevWord run (¬ isWordChar c) ++ c :: numGo (isWordChar c) [] rest

/-- Replacement of bare integers (regex boundary-digits-boundary) by the
n tag, as regex_replace does. -/
def replaceNumRuns (s : List Char) : List Char := numGo false [] s

/-- Whitespace collapse loop of BurstPatternDetector::normalizeMessage. -/
def collapseWsGo (inWs : Bool) : List Char → List Char
  | [] => []
  | c :: rest =>
    if isSpaceChar c then
      (if inWs then [] else [' ']) ++ collapseWsGo true rest
    else c :: collapseWsGo false rest

/-- Model of BurstPatternDetector::normalizeMessage: lower-case, replace
hex/uuid-like tokens, replace bare integers, collapse whitespace, trim
spaces. -/
def normalizeMessage (msg : String) : String :=
  let s := collapseWsGo false (replaceNumRuns (replaceHexRuns (lowerChars msg.data)))
  String.mk ((s.dropWhile (· = ' ')).reverse.dropWhile (· = ' ') |>.reverse)

/-- Model of BurstPatternDetector::signature. -/
def burstSignature (e : LogEntry) : String :=
  (e.source.getD "unknown") ++ "|" ++ toString (levelOrd e.level) ++ "|"
    ++ normalizeMessage e.message

/-- Configuration members of BurstPatternDetector, with the defaults of
the header. -/
structure BurstConfig where
  window : Int := 60
  minRepeats : Nat := 20
  maxSamples : Nat := 5
deriving DecidableEq, Repr

/-- Model of BurstPatternDetector::State. -/
structure BurstState where
  events : List (Int × LogEntry) := []
deriving DecidableEq, Repr

/-- Model of BurstPatternDetector::Burst.  The repeats field carries the
count the description string is rendered from. -/
structure Burst where
  key : String
  repeats : Nat
  score : ℚ
  level : LogLevel
  source : Option String
  windowStart : Int
  windowEnd : Int
  samples : List LogEntry
deriving DecidableEq, Repr

/-- Model of BurstPatternDetector::evictOld. -/
def burstEvictOld (cfg : BurstConfig) (now : Int) : List (Int × LogEntry) → List (Int × LogEntry)
  | [] => []
  | (t, e) :: rest =>
    if now - t > cfg.window then burstEvictOld cfg now rest
    else (t, e) :: rest

/-- The post-emission truncation loop: pop from the front until at most
keep events remain. -/
def burstTruncate (keep : Nat) (evs : List (Int × LogEntry)) : List (Int × LogEntry) :=
  evs.drop (evs.length - keep)

/-- Model of BurstPatternDetector::processEntry.  Note the truncation
guard of the source is events.size() > m_minRepeats, strictly greater:
at exactly minRepeats events the deque is emitted but not truncated. -/
def burstProcessEntry (cfg : BurstConfig) (states : List (String × BurstState))
    (e : LogEntry) : List Burst × List (String × BurstState) :=
  let now := e.timestamp
  let key := burstSignature e
  let st := (alistLookup states key).getD {}
  let evs := burstEvictOld cfg now (st.events ++ [(now, e)])
  let c := evs.length
  if c ≥ cfg.minRepeats then
    let b : Burst :=
      { key := key, repeats := c, score := (c : ℚ), level := e.level, source := e.source,
        windowStart := ((evs.head?).map (·.1)).getD 0,
        windowEnd := ((evs.getLast?).map (·.1)).getD 0,
        samples := (evs.drop (c - cfg.maxSamples)).map (·.2) }
    let evs' := if evs.length > cfg.minRepeats
                then burstTruncate (max 1 (cfg.minRepeats / 2)) evs
                else evs
    ([b], alistSet states key { events := evs' })
  else ([], alistSet states key { events := evs })

/-! ### IpFrequencyDetector (src/anomaly/IpFrequencyDetector.cpp) -/

/-- One regex group of 1-3 digits: the maximal digit run here must have
length 1..3 (a longer run cannot be followed by the required
delimiter, and backtracking inside a run always fails). -/
def ipDigits (s : List Char) : Option (List Char × List Char) :=
  let run := s.takeWhile isDigitChar
  if run.length ≥ 1 && run.length ≤ 3 then some (run, s.drop run.length) else none

/-- Attempt to match the IPv4 regex (boundary, 4 dot-separated groups of
1-3 digits, boundary) at the start of s; the left boundary is checked by
the caller. -/
def matchIpAt (s : List Char) : Option (List Char) :=
  match ipDigits s with
  | none => none
  | some (g1, r1) =>
    match r1 with
    | '.' :: r1' =>
      match ipDigits r1' with
      | none => none
      | some (g2, r2) =>
        match r2 with
        | '.' :: r2' =>
          match ipDigits r2' with
          | none => none
          | some (g3, r3) =>
            match r3 with
            | '.' :: r3' =>
              match ipDigits r3' with
              | none => none
              | some (g4, r4) =>
                match r4 with
                | [] => some (g1 ++ '.' :: g2 ++ '.' :: g3 ++ '.' :: g4)
                | c :: _ =>
                  if isWordChar c then none
                  else some (g1 ++ '.' :: g2 ++ '.' :: g3 ++ '.' :: g4)
            | _ => none
        | _ => none
    | _ => none

/-- Leftmost-match scan of regex_search for the IPv4 pattern; prevWord
tracks the word boundary on the left. -/
def ipScan (prevWord : Bool) : List Char → Option (List Char)
  | [] => none
  | c :: rest =>
    match (if prevWord then none else matchIpAt (c :: rest)) with
    | some m => some m
    | none => ipScan (isWordChar c) rest

/-- Model of IpFrequencyDetector::extractIp. -/
def extractIp (message : String) : Option String :=
  (ipScan false message.data).map String.mk

/-- Model of IpFrequencyDetector::IpHit. -/
structure IpHit where
  ip : String
  count : Nat
  entry : LogEntry
deriving DecidableEq, Repr

/-- Model of IpFrequencyDetector::processEntry with its global counter
map; the detector emits exactly while the post-increment count is at
most maxCountForRare (default 5). -/
def ipProcessEntry (maxCountForRare : Nat) (counts : List (String × Nat))
    (e : LogEntry) : List IpHit × List (String × Nat) :=
  match extractIp e.message with
  | none => ([], counts)
  | some ip =>
    let newCount := (alistLookup counts ip).getD 0 + 1
    let counts' := alistSet counts ip newCount
    (if newCount ≤ maxCountForRare then [{ ip := ip, count := newCount, entry := e }] else [],
     counts')

/-! ### SpikeDetector (src/anomaly/SpikeDetector.cpp) -/

/-- Configuration members of SpikeDetector, with the defaults of the
header. -/
structure SpikeConfig where
  spikeThreshold : ℚ := 3
  shortWindow : Int := 60
  baselineWindow : Int := 600
  maxSampleEvents : Nat := 5
deriving DecidableEq, Repr

/-- Model of SpikeDetector::setSpikeThreshold's stored value. -/
def spikeSetThreshold (ratio : ℚ) : ℚ := max (11/10 : ℚ) ratio

/-- Model of SpikeDetector::setMaxSampleEvents's stored value. -/
def spikeSetMaxSampleEvents (count : Nat) : Nat := max 1 count

/-- Model of SpikeDetector::SourceState. -/
structure SourceState where
  recentEvents : List Int := []
  currentCount : Nat := 0
  baselineEvents : List Int := []
  baselineCount : Nat := 0
  previousCount : Nat := 0
  samples : List LogEntry := []
deriving DecidableEq, Repr

/-- Model of SpikeDetector::SpikeStats. -/
structure SpikeStats where
  currentCount : Nat := 0
  baselineCount : Nat := 0
  spikeRatio : ℚ := 1
  rateOfChange : ℚ := 0
  windowStart : Int := 0
  windowEnd : Int := 0
  source : String := ""
deriving DecidableEq, Repr

/-- The two eviction loops of SpikeDetector::processEntry: drop front
timestamps older than the window, decrementing the running count. -/
def spikeEvict (window : Int) (now : Int) : List Int → Nat → List Int × Nat
  | [], cnt => ([], cnt)
  | t :: rest, cnt =>
    if now - t > window then spikeEvict window now rest (cnt - 1)
    else (t :: rest, cnt)

/-- Model of SpikeDetector::calculateStats.  previousCount is never
written anywhere in the source, so the rate-of-change branch is dead;
the size_t subtraction it would perform is modelled with the 2^64
wrap-around. -/
def spikeCalculateStats (cfg : SpikeConfig) (st : SourceState) (source : String)
    (now : Int) : SpikeStats :=
  let currentRate : ℚ := (st.currentCount : ℚ) / (cfg.shortWindow : ℚ)
  let baselineRate : ℚ := (st.baselineCount : ℚ) / (cfg.baselineWindow : ℚ)
  { currentCount := st.currentCount,
    baselineCount := if st.baselineCount = 0 then 1 else st.baselineCount,
    windowStart := now - cfg.shortWindow, windowEnd := now, source := source,
    spikeRatio := if baselineRate > 0 then currentRate / baselineRate else 1,
    rateOfChange :=
      if st.previousCount > 0 then
        ((((st.currentCount : Int) - (st.previousCount : Int)).emod (2 ^ 64) : ℚ))
          / (st.previousCount : ℚ)
      else 0 }

/-- Model of SpikeDetector::isSpike. -/
def spikeIsSpike (cfg : SpikeConfig) (stats : SpikeStats) : Bool :=
  stats.spikeRatio > cfg.spikeThreshold
    && stats.currentCount ≥ 5
    && stats.baselineCount ≥ 10

/-- Model of SpikeDetector::SpikeAnomaly; the description string of
createAnomaly is a function of stats, which is carried whole. -/
structure SpikeAnomaly where
  severity : ℚ
  stats : SpikeStats
  sampleEvents : List LogEntry
deriving DecidableEq, Repr

/-- Model of SpikeDetector::createAnomaly. -/
def spikeCreateAnomaly (cfg : SpikeConfig) (stats : SpikeStats)
    (samples : List LogEntry) : SpikeAnomaly :=
  { severity := min 1 ((stats.spikeRatio - 1) / (cfg.spikeThreshold - 1)),
    stats := stats, sampleEvents := samples }

/-- The state update of SpikeDetector::processEntry for an entry with a
usable source: push into both windows, evict, store a bounded sample. -/
def spikeUpdateState (cfg : SpikeConfig) (st : SourceState) (e : LogEntry)
    (now : Int) : SourceState :=
  let (re, cc) := spikeEvict cfg.shortWindow now (st.recentEvents ++ [now])
                    (st.currentCount + 1)
  let (be, bc) := spikeEvict cfg.baselineWindow now (st.baselineEvents ++ [now])
                    (st.baselineCount + 1)
  let samples := st.samples ++ [e]
  let samples := if samples.length > cfg.maxSampleEvents then samples.drop 1 else samples
  { st with recentEvents := re, currentCount := cc,
            baselineEvents := be, baselineCount := bc, samples := samples }

/-- Model of SpikeDetector::processEntry.  An entry whose source is
absent or the empty string is skipped entirely: no state is touched and
nothing is emitted. -/
def spikeProcessEntry (cfg : SpikeConfig) (states : List (String × SourceState))
    (e : LogEntry) : List SpikeAnomaly × List (String × SourceState) :=
  match e.source with
  | none => ([], states)
  | some src =>
    if src = "" then ([], states)
    else
      let now := e.timestamp
      let st := (alistLookup states src).getD {}
      let st' := spikeUpdateState cfg st e now
      let stats := spikeCalculateStats cfg st' src now
      ((if spikeIsSpike cfg stats then [spikeCreateAnomaly cfg stats st'.samples] else []),
       alistSet states src st')

/-- The spike ratio as the claim words it: short-deque-length over the
short window divided by long-deque-length over the baseline window, 1
when the baseline rate is zero.  (spikeCalculateStats computes it from
the cached counters instead; the two agree on well-formed states.) -/
def spikeClaimRatio (cfg : SpikeConfig) (states : List (String × SourceState))
    (e : LogEntry) (src : String) : ℚ :=
  let st' := spikeUpdateState cfg ((alistLookup states src).getD {}) e e.timestamp
  let currentRate : ℚ := (st'.recentEvents.length : ℚ) / (cfg.shortWindow : ℚ)
  let baselineRate : ℚ := (st'.baselineEvents.length : ℚ) / (cfg.baselineWindow : ℚ)
  if baselineRate > 0 then currentRate / baselineRate else 1

/-! ### StatisticalDetector (src/anomaly/StatisticalDetector.cpp) -/

/-- Configuration members of StatisticalDetector, with the defaults of
the header. -/
structure StatConfig where
  zScoreThreshold : ℚ := 3
  windowSize : Nat := 100
  smoothingFactor : ℚ := 1/10
  rateWindow : Int := 600
deriving DecidableEq, Repr

/-- Model of StatisticalDetector::OnlineStats. -/
structure OnlineStats where
  mean : ℚ := 0
  m2 : ℚ := 0
  count : Nat := 0
  window : List ℚ := []
deriving DecidableEq, Repr

/-- Model of OnlineStats::update (Welford, with the fixed 100-sample
window cap of the source). -/
def onlineUpdate (st : OnlineStats) (value : ℚ) : OnlineStats :=
  let count' := st.count + 1
  let delta := value - st.mean
  let mean' := st.mean + delta / (count' : ℚ)
  let delta2 := value - mean'
  let m2' := st.m2 + delta * delta2
  let w := st.window ++ [value]
  { mean := mean', m2 := m2', count := count',
    window := if w.length > 100 then w.drop 1 else w }

/-- Model of OnlineStats::variance. -/
def onlineVariance (st : OnlineStats) : ℚ :=
  if st.count < 2 then 0 else st.m2 / ((st.count - 1 : Nat) : ℚ)

/-- The signed square of calculateZScore's value.  The C++ returns
z = (value - mean) / stddev, irrational in general; the model carries
the injective recoding z * |z| = (value - mean) * |value - mean| /
variance, from which z is recoverable, and which is 0 exactly when the
C++ z is 0 (count below 10 or zero stddev). -/
def statZSignedSq (value : ℚ) (st : OnlineStats) : ℚ :=
  let var := onlineVariance st
  if st.count < 10 ∨ ¬ (var > 0) then 0
  else (value - st.mean) * |value - st.mean| / var

/-- Model of StatisticalDetector::isAnomaly on the recoded z: |z| exceeds
the threshold exactly when |z * |z|| exceeds its square. -/
def statIsAnomalyZSq (cfg : StatConfig) (zsq : ℚ) : Bool :=
  |zsq| > cfg.zScoreThreshold * cfg.zScoreThreshold

/-- Mutable state of StatisticalDetector. -/
structure StatState where
  sourceStats : List (String × OnlineStats) := []
  globalStats : OnlineStats := {}
  recentBySource : List (String × List Int) := []
deriving DecidableEq, Repr

/-- The eviction loop of StatisticalDetector::calculateEventRate. -/
def statEvictRate (window : Int) (ts : Int) : List Int → List Int
  | [] => []
  | t :: rest => if ts - t > window then statEvictRate window ts rest else t :: rest

/-- Model of StatisticalDetector::calculateEventRate; returns the rate
(events per minute) and the updated per-source deque. -/
def calculateEventRate (cfg : StatConfig) (dq0 : List Int) (ts : Int) : ℚ × List Int :=
  let dq := statEvictRate cfg.rateWindow ts (dq0 ++ [ts])
  if dq.length < 2 then
    ((dq.length : ℚ) * 60 / max 1 ((cfg.rateWindow : ℚ)), dq)
  else
    let spanSec : ℚ := max 1 ((((dq.getLast?).getD ts) - ((dq.head?).getD ts) : ℤ) : ℚ)
    let spanMin := spanSec / 60
    ((dq.length : ℚ) / max (1 / 1000000) spanMin, dq)

/-- The data of a StatisticalDetector::Anomaly that determines its
description, score and severity. -/
structure StatAnomaly where
  zSignedSq : ℚ
  mean : ℚ
  variance : ℚ
  count : Nat
  source : String
  entry : LogEntry
deriving DecidableEq, Repr

/-- Model of StatisticalDetector::processEntry: compute the per-source
event rate from log timestamps, update the Welford statistics of the
source and the global ones, and emit when the z-score is anomalous. -/
def statProcessEntry (cfg : StatConfig) (st : StatState) (e : LogEntry) :
    List StatAnomaly × StatState :=
  let source := e.source.getD "<unknown>"
  let dq0 := (alistLookup st.recentBySource source).getD []
  let (rate, dq) := calculateEventRate cfg dq0 e.timestamp
  let ss := onlineUpdate ((alistLookup st.sourceStats source).getD {}) rate
  let gs := onlineUpdate st.globalStats rate
  let zsq := statZSignedSq rate ss
  let anoms :=
    if statIsAnomalyZSq cfg zsq then
      [{ zSignedSq := zsq, mean := ss.mean, variance := onlineVariance ss,
         count := ss.count, source := source, entry := e }]
    else []
  (anoms,
   { sourceStats := alistSet st.sourceStats source ss,
     globalStats := gs,
     recentBySource := alistSet st.recentBySource source dq })

/-! ### FrequencyAnalyzer (src/analysis/FrequencyAnalyzer.cpp) -/

/-- Generic insertion-ordered association lookup (unordered_map with a
non-string key). -/
def assocLookup {α β : Type} [DecidableEq α] (l : List (α × β)) (k : α) : Option β :=
  (l.find? (fun p => p.1 = k)).map (·.2)

/-- Generic insertion-ordered association write. -/
def assocSet {α β : Type} [DecidableEq α] : List (α × β) → α → β → List (α × β)
  | [], k, v => [(k, v)]
  | p :: rest, k, v => if p.1 = k then (k, v) :: rest else p :: assocSet rest k v

/-- Generic counter increment. -/
def assocBump {α : Type} [DecidableEq α] (l : List (α × Nat)) (k : α) : List (α × Nat) :=
  assocSet l k ((assocLookup l k).getD 0 + 1)

/-- Configuration members of FrequencyAnalyzer, with the defaults of the
constructor. -/
structure FreqConfig where
  messageHashLength : Nat := 3
  spikeMultiplier : ℚ := 3
  minOccurrences : Nat := 2
deriving DecidableEq, Repr

/-- Mutable state of FrequencyAnalyzer. -/
structure FreqState where
  sourceCounts : List (String × Nat) := []
  levelCounts : List (LogLevel × Nat) := []
  messageCounts : List (String × Nat) := []
  sourceHistory : List (String × List Nat) := []
  sourceMovingAvg : List (String × ℚ) := []
deriving DecidableEq, Repr

/-- Model of FrequencyAnalyzer::hashMessage: the first N whitespace
tokens upper-cased and space-joined, or EMPTY. -/
def hashMessage (cfg : FreqConfig) (message : String) : String :=
  let words := ((wsTokens message.data).take cfg.messageHashLength).map upperChars
  if words = [] then "EMPTY" else String.mk (List.intercalate [' '] words)

/-- Model of FrequencyAnalyzer::updateMovingAverage: append the current
source count to a 10-snapshot history and store its mean. -/
def freqUpdateMovingAverage (st : FreqState) (source : String) : FreqState :=
  let hist := ((alistLookup st.sourceHistory source).getD [])
                ++ [(alistLookup st.sourceCounts source).getD 0]
  let hist := if hist.length > 10 then hist.drop 1 else hist
  let avg : ℚ := if hist = [] then 0
                 else ((hist.map (fun n => (n : ℚ))).sum) / (hist.length : ℚ)
  { st with sourceHistory := alistSet st.sourceHistory source hist,
            sourceMovingAvg := alistSet st.sourceMovingAvg source avg }

/-- Model of FrequencyAnalyzer::updateUnlocked (addEntry without the
lock). -/
def freqAddEntry (cfg : FreqConfig) (st : FreqState) (e : LogEntry) : FreqState :=
  let st := { st with
    sourceCounts := alistBump st.sourceCounts (e.source.getD ""),
    levelCounts := assocBump st.levelCounts e.level,
    messageCounts := alistBump st.messageCounts (hashMessage cfg e.message) }
  freqUpdateMovingAverage st (e.source.getD "")

/-- Model of FrequencyAnalyzer::detectAnomalies: end-of-stream source
spikes against the moving average, then rare message hashes.  The
description strings are carried as structured data. -/
def freqDetectAnomalies (cfg : FreqConfig) (st : FreqState) : List Descr :=
  (st.sourceCounts.filterMap (fun p =>
    match alistLookup st.sourceMovingAvg p.1 with
    | some avg =>
      if avg > 0 ∧ (p.2 : ℚ) > avg * cfg.spikeMultiplier then
        some (.freqSourceSpike p.1 p.2 ((p.2 : ℚ) / avg))
      else none
    | none => none))
  ++ (st.messageCounts.filterMap (fun p =>
    if p.2 < cfg.minOccurrences then some (.freqRareMessage p.1 p.2) else none))

/-! ### PatternAnalyzer (src/analysis/PatternAnalyzer.cpp) -/

/-- Configuration members of PatternAnalyzer, with the defaults of the
header. -/
structure PatternConfig where
  sequenceWindowSize : Nat := 10
  maxPatternExamples : Nat := 3
deriving DecidableEq, Repr

/-- Model of PatternAnalyzer::EventSignature. -/
structure EventSignature where
  source : String
  level : LogLevel
  msgHead3 : String
deriving DecidableEq, Repr

/-- Model of PatternAnalyzer::Pattern (the signature itself is the map
key). -/
structure PAPattern where
  frequency : Nat := 0
  firstSeen : Int := 0
  lastSeen : Int := 0
  examples : List LogEntry := []
deriving DecidableEq, Repr

/-- Mutable state of PatternAnalyzer. -/
structure PatternState where
  recentEvents : List LogEntry := []
  patterns : List (String × PAPattern) := []
  sequenceCounts : List (String × Nat) := []
deriving DecidableEq, Repr

/-- Model of PatternAnalyzer::createSignature: source, level and the
first three (trimmed) words of the message. -/
def paCreateSignature (e : LogEntry) : EventSignature :=
  { source := e.source.getD "", level := e.level,
    msgHead3 :=
      String.mk (List.intercalate [' '] ((splitAndTrimChars e.message.data ' ').take 3)) }

/-- Model of PatternAnalyzer::sequenceToSignature. -/
def sequenceToSignature (seq : List EventSignature) : String :=
  String.mk (List.intercalate "->".data (seq.map (fun sig =>
    sig.source.data ++ ':' :: (toString (levelOrd sig.level)).data
      ++ ':' :: (sig.msgHead3.data.take 20))))

/-- Model of PatternAnalyzer::updatePatternUnlocked.  The firstSeen
sentinel TimePoint of the source is the epoch, modelled as 0. -/
def paUpdatePattern (cfg : PatternConfig) (st : PatternState) (sig : String)
    (latest : LogEntry) : PatternState :=
  let p := (alistLookup st.patterns sig).getD {}
  let p := { p with frequency := p.frequency + 1, lastSeen := latest.timestamp }
  let p := if p.firstSeen = 0 then { p with firstSeen := latest.timestamp } else p
  let ex := p.examples ++ [latest]
  let p := { p with examples := if ex.length > cfg.maxPatternExamples then ex.drop 1 else ex }
  { st with sequenceCounts := alistBump st.sequenceCounts sig,
            patterns := alistSet st.patterns sig p }

/-- Model of PatternAnalyzer::addEntry: push into the sliding window,
then register every contiguous subsequence of length at least 2. -/
def paAddEntry (cfg : PatternConfig) (st : PatternState) (e : LogEntry) : PatternState :=
  let recent := st.recentEvents ++ [e]
  let recent := if recent.length > cfg.sequenceWindowSize then recent.drop 1 else recent
  let st := { st with recentEvents := recent }
  let latest := (recent.getLast?).getD e
  let top := min cfg.sequenceWindowSize recent.length
  (List.range' 2 (top - 1)).foldl (fun st len =>
    (List.range (recent.length - len + 1)).foldl (fun st start =>
      let seq := ((recent.drop start).take len).map paCreateSignature
      paUpdatePattern cfg st (sequenceToSignature seq) latest) st) st

/-- Model of PatternAnalyzer::isHighSeverityPattern. -/
def isHighSeverityPattern (sig : String) : Bool :=
  containsSub sig.data "ERROR".data || containsSub sig.data "CRITICAL".data
    || containsSub sig.data "FATAL".data

/-- Model of PatternAnalyzer::detectAnomalies: novel high-severity
patterns, then never-seen sequence transitions. -/
def paDetectAnomalies (st : PatternState) : List Descr :=
  (st.patterns.filterMap (fun p =>
    if p.2.frequency = 1 ∧ isHighSeverityPattern p.1 then
      some (.patternNovel (String.mk (p.1.data.take 50)))
    else none))
  ++ (st.sequenceCounts.filterMap (fun p =>
    if p.2 = 1 then some (.patternNewSeq p.1) else none))

/-! ### Core report model (include/core/Anomaly.hpp, include/core/Report.hpp) -/

/-- Model of core::AnomalyType. -/
inductive AnomalyType where
  | frequencySpike | rarePattern | statisticalOutlier | sequenceViolation | silence | other
deriving DecidableEq, Repr

/-- Model of core::AnomalySeverity. -/
inductive AnomalySeverity where
  | low | medium | high | critical
deriving DecidableEq, Repr

/-- Numeric value of the AnomalySeverity enum. -/
def sevOrd : AnomalySeverity → Nat
  | .low => 0
  | .medium => 1
  | .high => 2
  | .critical => 3

/-- Model of core::Anomaly as built by the pipeline; the description is
carried structured (see Descr). -/
structure Anomaly where
  atype : AnomalyType
  severity : AnomalySeverity
  windowStart : Int
  windowEnd : Int
  score : ℚ
  descr : Descr
  source : Option String := none
  relatedEntries : List LogEntry := []
deriving DecidableEq, Repr

/-- Model of core::LevelStats. -/
structure LevelStats where
  count : Nat := 0
  anomalyCount : Nat := 0
deriving DecidableEq, Repr

/-- Model of core::SourceStats. -/
structure SourceStats where
  totalEvents : Nat := 0
  errorEvents : Nat := 0
  warningEvents : Nat := 0
deriving DecidableEq, Repr

/-- Sorted-insert update of a std::map modelled as an association list
ordered by lt. -/
def smapUpdate {α β : Type} [DecidableEq α] (lt : α → α → Bool) (k : α) (dflt : β)
    (f : β → β) : List (α × β) → List (α × β)
  | [] => [(k, f dflt)]
  | (k', v) :: rest =>
    if k = k' then (k', f v) :: rest
    else if lt k k' then (k, f dflt) :: (k', v) :: rest
    else (k', v) :: smapUpdate lt k dflt f rest

/-- Model of core::Report. -/
structure Report where
  analysisStart : Int := 0
  analysisEnd : Int := 0
  totalEntries : Nat := 0
  processedFile : Option String := none
  anomalies : List Anomaly := []
  levelStats : List (LogLevel × LevelStats) := []
  sourceStats : List (String × SourceStats) := []
deriving DecidableEq, Repr

/-- Model of Report::incrementLevelCount. -/
def reportIncrementLevelCount (r : Report) (lvl : LogLevel) (isAnomaly : Bool) : Report :=
  let f : LevelStats → LevelStats := fun st =>
    { st with count := st.count + 1,
              anomalyCount := st.anomalyCount + (if isAnomaly then 1 else 0) }
  { r with levelStats :=
      smapUpdate (fun a b => levelOrd a < levelOrd b) lvl ({} : LevelStats) f r.levelStats }

/-- Model of Report::updateSourceStats. -/
def reportUpdateSourceStats (r : Report) (source : String) (lvl : LogLevel) : Report :=
  let f : SourceStats → SourceStats := fun st =>
    { st with totalEvents := st.totalEvents + 1,
              errorEvents := st.errorEvents
                + (if lvl = .error ∨ lvl = .critical then 1 else 0),
              warningEvents := st.warningEvents + (if lvl = .warn then 1 else 0) }
  { r with sourceStats :=
      smapUpdate (fun a b => decide (a < b)) source ({} : SourceStats) f r.sourceStats }

/-- Model of Report::addAnomaly. -/
def reportAddAnomaly (r : Report) (a : Anomaly) : Report :=
  { r with anomalies := r.anomalies ++ [a] }

/-! ### Pipeline driver (src/main.cpp) -/

/-- The default-constructed detector configurations used by main (its
ConfigLoader is default-constructed and never consulted). -/
def dfltTW : TWConfig := {}

def dfltFreq : FreqConfig := {}

def dfltPattern : PatternConfig := {}

def dfltSpike : SpikeConfig := {}

def dfltStat : StatConfig := {}

def dfltBurst : BurstConfig := {}

/-- Model of RuleBasedDetector::matchesToAnomalies: the source is a
placeholder that always returns the empty vector, so rule matches never
reach the report. -/
def ruleMatchesToAnomalies : List Anomaly := []

/-- Severity band of main.cpp for spike anomalies. -/
def spikeSeverityBand (sev : ℚ) : AnomalySeverity :=
  if sev ≥ 9/10 then .critical else if sev ≥ 6/10 then .high else .medium

/-- Severity band of main.cpp for statistical anomalies.  The C++
compares min(1, |z| / threshold) with 0.9 and 0.6; on the recoded
z * |z| this is |zsq| against 0.81 and 0.36 times the squared
threshold. -/
def statSeverityBand (cfg : StatConfig) (zsq : ℚ) : AnomalySeverity :=
  let t2 := cfg.zScoreThreshold * cfg.zScoreThreshold
  if |zsq| ≥ (81/100) * t2 then .high
  else if |zsq| ≥ (36/100) * t2 then .medium
  else .low

/-- Severity band of main.cpp for TimeWindowAnalyzer anomalies. -/
def twSeverityBand (score : ℚ) : AnomalySeverity :=
  if score ≥ 9/10 then .high else if score ≥ 6/10 then .medium else .low

/-- Whole-pipeline state of the processing loop of main. -/
structure PipelineState where
  report : Report := {}
  freq : FreqState := {}
  tw : TWState := {}
  pattern : PatternState := {}
  spike : List (String × SourceState) := []
  stat : StatState := {}
  burst : List (String × BurstState) := []
  ipCounts : List (String × Nat) := []
  parsedCount : Nat := 0
  malformedCount : Nat := 0
  haveTimeRange : Bool := false
  minTs : Int := 0
  maxTs : Int := 0
deriving DecidableEq, Repr

/-- The malformed-line anomaly of main's loop: its window is the wall
clock now of the run. -/
def malformedAnomaly (now : Int) (pr : ParseResult) : Anomaly :=
  { atype := .other, severity := .low, windowStart := now, windowEnd := now,
    score := 1,
    descr := .malformedLine (if pr.error = "" then "parse failure" else pr.error),
    source := some "parser", relatedEntries := [] }

/-- main's conversion of a SpikeDetector emission to a core::Anomaly. -/
def spikeToAnomaly (s : SpikeAnomaly) : Anomaly :=
  { atype := .frequencySpike, severity := spikeSeverityBand s.severity,
    windowStart := s.stats.windowStart, windowEnd := s.stats.windowEnd,
    score := s.stats.spikeRatio,
    descr := .spikeDetected s.stats.source s.stats.currentCount
               dfltSpike.shortWindow s.stats.spikeRatio s.stats.rateOfChange,
    source := if s.stats.source = "" then none else some s.stats.source,
    relatedEntries := s.sampleEvents }

/-- main's conversion of a StatisticalDetector emission. -/
def statToAnomaly (entry : LogEntry) (st : StatAnomaly) : Anomaly :=
  { atype := .statisticalOutlier, severity := statSeverityBand dfltStat st.zSignedSq,
    windowStart := entry.timestamp, windowEnd := entry.timestamp,
    score := st.zSignedSq,
    descr := .statOutlier st.source st.zSignedSq st.mean st.variance,
    source := entry.source, relatedEntries := [entry] }

/-- main's conversion of a BurstPatternDetector emission. -/
def burstToAnomaly (b : Burst) : Anomaly :=
  { atype := .sequenceViolation, severity := .high,
    windowStart := b.windowStart, windowEnd := b.windowEnd,
    score := b.score, descr := .burstRepetition b.repeats dfltBurst.window,
    source := b.source, relatedEntries := b.samples }

/-- main's conversion of an IpFrequencyDetector emission. -/
def ipToAnomaly (h : IpHit) : Anomaly :=
  { atype := .rarePattern, severity := .low,
    windowStart := h.entry.timestamp, windowEnd := h.entry.timestamp,
    score := 1, descr := .rareIpSeen h.count h.ip,
    source := h.entry.source, relatedEntries := [h.entry] }

/-- main's conversion of a TimeWindowAnalyzer anomaly: it is typed
Silence when its description says so (main searches the description
string for the word Silence, which only checkSilence writes; the model
tests the description constructor). -/
def twToAnomaly (twa : TWAnomaly) : Anomaly :=
  { atype := match twa.descr with
      | .twSilence _ => .silence
      | _ => .frequencySpike,
    severity := twSeverityBand twa.score,
    windowStart := twa.stats.windowStart, windowEnd := twa.stats.windowEnd,
    score := twa.score, descr := twa.descr, source := none, relatedEntries := [] }

/-- Min/max timestamp tracking of main's loop. -/
def trackTimeRange (ps : PipelineState) (ts : Int) : PipelineState :=
  if ¬ ps.haveTimeRange then
    { ps with haveTimeRange := true, minTs := ts, maxTs := ts }
  else
    { ps with minTs := min ps.minTs ts, maxTs := max ps.maxTs ts }

/-- The parse-success body of main's loop: update report statistics,
feed the analyzers, run the real-time detectors and append their
anomalies in the fixed order rule, spike, statistical, burst, rare-IP. -/
def mainStepEntry (ps : PipelineState) (entry : LogEntry) : PipelineState :=
  let ps := trackTimeRange { ps with parsedCount := ps.parsedCount + 1 } entry.timestamp
  let r := reportIncrementLevelCount ps.report entry.level false
  let r := reportUpdateSourceStats r (entry.source.getD "unknown") entry.level
  let freq' := freqAddEntry dfltFreq ps.freq entry
  let tw' := twAddEntry dfltTW ps.tw entry
  let pattern' := paAddEntry dfltPattern ps.pattern entry
  -- Rule-based detector: checkEntry's matches feed matchesToAnomalies,
  -- which returns the empty vector in the source, so the loop body below
  -- never runs and the rule state is unobservable in the report.
  let r := ruleMatchesToAnomalies.foldl
    (fun r a => reportIncrementLevelCount (reportAddAnomaly r a) entry.level true) r
  let (spikeAnoms, spike') := spikeProcessEntry dfltSpike ps.spike entry
  let r := (spikeAnoms.map spikeToAnomaly).foldl reportAddAnomaly r
  let (statAnoms, stat') := statProcessEntry dfltStat ps.stat entry
  let r := (statAnoms.map (statToAnomaly entry)).foldl reportAddAnomaly r
  let (burstAnoms, burst') := burstProcessEntry dfltBurst ps.burst entry
  let r := (burstAnoms.map burstToAnomaly).foldl reportAddAnomaly r
  let (ipHits, ipCounts') := ipProcessEntry 5 ps.ipCounts entry
  let r := (ipHits.map ipToAnomaly).foldl reportAddAnomaly r
  { ps with report := r, freq := freq', tw := tw', pattern := pattern',
            spike := spike', stat := stat', burst := burst', ipCounts := ipCounts' }

/-- One iteration of the processing loop of main.  now models the wall
clock Report::Clock::now(), which the loop reads only on the malformed
branch.  The per-minute time-series map of main feeds only the optional
graphs export and is not part of the report, so it is not modelled. -/
def mainStep (now : Int) (ps : PipelineState) (line : String) : PipelineState :=
  if line = "" then ps
  else
    let pr := parseLineDetailed line
    match pr.entry with
    | none =>
      { ps with report := reportAddAnomaly ps.report (malformedAnomaly now pr),
                malformedCount := ps.malformedCount + 1 }
    | some entry => mainStepEntry ps entry

/-- The end-of-stream section of main: offline analyzer summaries and
the report metadata.  now models the wall clock, used only when no entry
parsed. -/
def mainFinish (now : Int) (ps : PipelineState) : Report :=
  let ws := if ps.haveTimeRange then ps.minTs else now
  let we := if ps.haveTimeRange then ps.maxTs else now
  let mk := fun (ty : AnomalyType) (d : Descr) =>
    ({ atype := ty, severity := .medium, windowStart := ws, windowEnd := we,
       score := 1, descr := d, source := none, relatedEntries := [] } : Anomaly)
  let r := ((freqDetectAnomalies dfltFreq ps.freq).map (mk .frequencySpike)).foldl
             reportAddAnomaly ps.report
  let r := ((paDetectAnomalies ps.pattern).map (mk .sequenceViolation)).foldl
             reportAddAnomaly r
  let r := ((twDetectAnomalies dfltTW ps.tw).map twToAnomaly).foldl reportAddAnomaly r
  { r with totalEntries := ps.parsedCount,
           analysisStart := if ps.haveTimeRange then ps.minTs else now,
           analysisEnd := if ps.haveTimeRange then ps.maxTs else now }

/-- Model of the batch-processing pipeline of main: parse every line,
drive the detectors, then run the offline scans.  now is the wall clock
of the run. -/
def runPipeline (lines : List String) (now : Int) : Report :=
  mainFinish now (lines.foldl (mainStep now) {})

/-! ### ReportGenerator (src/report/ReportGenerator.cpp) -/

/-- Model of core::Anomaly as the ReportGenerator consumes it: the
description here is the rendered string, since the comparator's final
tie-break is std::string's lexicographic order (modelled by String's
order, which coincides for ASCII). -/
structure CAnomaly where
  atype : AnomalyType
  severity : AnomalySeverity
  windowStart : Int
  windowEnd : Int
  score : ℚ
  description : String
  source : Option String := none
  relatedEntries : List LogEntry := []
deriving DecidableEq, Repr

/-- Model of core::Report as stored by the ReportGenerator. -/
structure CReport where
  analysisStart : Int := 0
  analysisEnd : Int := 0
  totalEntries : Nat := 0
  processedFile : Option String := none
  anomalies : List CAnomaly := []
  levelStats : List (LogLevel × LevelStats) := []
  sourceStats : List (String × SourceStats) := []
deriving DecidableEq, Repr

/-- Model of ReportGenerator::anomalySeverityComparator: severity
descending, then score descending, then windowEnd descending, then
description ascending. -/
def anomalySeverityComparator (a b : CAnomaly) : Bool :=
  if a.severity ≠ b.severity then sevOrd a.severity > sevOrd b.severity
  else if a.score ≠ b.score then a.score > b.score
  else if a.windowEnd ≠ b.windowEnd then a.windowEnd > b.windowEnd
  else a.description < b.description

/-- The non-strict order induced by the comparator (std::sort's
postcondition is that no later element strictly precedes an earlier
one). -/
def rgLe (a b : CAnomaly) : Bool := ! anomalySeverityComparator b a

/-- Sort key of the comparator: it is a strict less-than on this
lexicographic tuple (severity negated so higher sorts first, likewise
score and windowEnd). -/
def rgKey (a : CAnomaly) : Nat ×ₗ (ℚ ×ₗ (Int ×ₗ String)) :=
  toLex (3 - sevOrd a.severity, toLex (-a.score, toLex (-a.windowEnd, a.description)))

/-- Mutable state of the ReportGenerator (the output format selector is
irrelevant to the ranking behaviour). -/
structure RGState where
  reportData : CReport := {}
  sortedAnomalies : List CAnomaly := []
  maxAnomalies : Nat := 50
  includeSamples : Bool := true
deriving DecidableEq, Repr

/-- Model of ReportGenerator::generateReport: copy the report, sort a
copy of its anomaly list, truncate when a positive cap is exceeded.
std::sort is modelled by a merge sort; the properties proved about the
result (sortedness and permutation) hold for any std::sort outcome. -/
def rgGenerateReport (g : RGState) (reportData : CReport) : RGState :=
  let sorted := reportData.anomalies.mergeSort rgLe
  let sorted' := if 0 < g.maxAnomalies ∧ g.maxAnomalies < sorted.length
                 then sorted.take g.maxAnomalies else sorted
  { g with reportData := reportData, sortedAnomalies := sorted' }

/-! ### Concrete inputs used to check the claims -/

/-- An INFO entry for source svc1 at time t (silence scenario). -/
def mkTick (t : Int) : LogEntry :=
  { timestamp := t, level := .info, source := some "svc1", message := "tick one two" }

/-- The silence-scenario entries: five at 2024-01-01 00:00:00..04 and
five at 00:10:00..04 (1704067200 is the epoch of 2024-01-01 00:00:00
UTC). -/
def twScenEntries : List LogEntry :=
  ((List.range 5).map (fun i => mkTick (1704067200 + i)))
    ++ ((List.range 5).map (fun i => mkTick (1704067200 + 600 + i)))

/-- The TimeWindowAnalyzer state after the silence scenario. -/
def twScenState : TWState := twScenEntries.foldl (twAddEntry dfltTW) {}

/-- The burst-scenario entry: the parsed form of the line INFO svc2:
cache miss for user 42 (any fixed timestamp; all 25 lines are
identical). -/
def burstScenEntry : LogEntry :=
  { timestamp := 1704067200, level := .info, source := some "svc2",
    message := "cache miss for user 42" }

/-- Number of bursts the BurstPatternDetector emits on each of 25
consecutive identical entries, in order. -/
def burstScenCounts : List Nat :=
  ((List.replicate 25 burstScenEntry).foldl
    (fun acc e =>
      let r := burstProcessEntry dfltBurst acc.2 e
      (acc.1 ++ [r.1.length], r.2))
    ([], [])).1

/-- One step of the IpFrequencyDetector run, accumulating emitted hits. -/
def ipStep (acc : List IpHit × List (String × Nat)) (e : LogEntry) :
    List IpHit × List (String × Nat) :=
  let r := ipProcessEntry 5 acc.2 e
  (acc.1 ++ r.1, r.2)

/-- An entry whose message carries the given text (rare-IP scenario). -/
def ipEntry (msg : String) : LogEntry :=
  { timestamp := 1704067200, level := .info, source := some "gw", message := msg }

/-- The rare-IP scenario: 1000 entries, 995 whose message contains
from 10.0.0.1 and 5 whose message contains from 10.0.0.7. -/
def ipScenEntries : List LogEntry :=
  List.replicate 995 (ipEntry "request from 10.0.0.1")
    ++ List.replicate 5 (ipEntry "request from 10.0.0.7")

/-- All IpHits emitted over a stream, in order. -/
def ipRunHits (entries : List LogEntry) : List IpHit :=
  (entries.foldl ipStep ([], [])).1

/-- Number of RarePattern emissions carrying a given address over the
rare-IP scenario. -/
def ipCountFor (ip : String) : Nat :=
  (ipRunHits ipScenEntries).countP (fun h => h.ip = ip)

/-- The hit record emitted for the frequent address on its c-th sighting. -/
def ipHit1 (c : Nat) : IpHit :=
  { ip := "10.0.0.1", count := c, entry := ipEntry "request from 10.0.0.1" }

/-- The hit record emitted for the rare address on its c-th sighting. -/
def ipHit7 (c : Nat) : IpHit :=
  { ip := "10.0.0.7", count := c, entry := ipEntry "request from 10.0.0.7" }

/-- A well-formed text line whose first 19 characters parse to an
instant before 2000-01-01 (epoch 915148800 is 1999-01-01 00:00:00
UTC). -/
def c4Line : String := "1999-01-01 00:00:00 ERROR svc: oops here now"

/-- A JSON line whose message key is present but holds the empty
string. -/
def c5JsonLine : String :=
  "\x7b\"time\":\"2024-01-01 00:00:00\",\"level\":\"INFO\",\"message\":\"\"\x7d"

/-- A text line that parses, used as witness input. -/
def c5TextLine : String := "2024-01-01 00:00:00 INFO svc: alpha beta gamma"

/-- A line no pattern matches (the spec's malformed scenario). -/
def c6BadLine : String := "this is not a log"

/-- Two parseable lines, used to witness wall-clock independence. -/
def c6GoodLines : List String :=
  ["2024-01-01 00:00:00 INFO svc1: alpha beta gamma",
   "2024-01-01 00:00:30 ERROR svc1: delta epsilon zeta"]

/-- The successfully parsed entry of c5TextLine (getD is never taken:
the parse succeeds). -/
def c5TextEntry : LogEntry :=
  ((parseLineDetailed c5TextLine).entry).getD
    { timestamp := 0, level := .info, source := none, message := "x" }

/-- A text line with no source token after the timestamp and no bracket:
the parser substitutes "unknown". -/
def c9NoSourceLine : String := "2024-01-01 00:00:00 INFO alpha beta gamma"

/-- Well-formedness of SpikeDetector states: the running counters equal
the deque lengths (true of every reachable state; the code keeps them in
lock step). -/
def spikeWF (states : List (String × SourceState)) : Prop :=
  ∀ p ∈ states, p.2.currentCount = p.2.recentEvents.length
    ∧ p.2.baselineCount = p.2.baselineEvents.length

/-- An entry from source svc at a fixed instant (spike witness). -/
def spikeWitnessEntry : LogEntry :=
  { timestamp := 1704067200, level := .info, source := some "svc", message := "m x y" }

/-- SpikeDetector state after nine such entries: the tenth triggers a
spike (ratio (10/60)/(10/600) = 10 > 3, short 10 ≥ 5, long 10 ≥ 10). -/
def spikeWitnessStates : List (String × SourceState) :=
  ((List.replicate 9 spikeWitnessEntry).foldl
    (fun sts e => (spikeProcessEntry dfltSpike sts e).2) [])

/-- A report with three anomalies out of severity order, for the
ReportGenerator witness. -/
def rgwReport : CReport :=
  { anomalies :=
      [{ atype := .other, severity := .low, windowStart := 0, windowEnd := 10,
         score := 1, description := "b" },
       { atype := .other, severity := .critical, windowStart := 0, windowEnd := 5,
         score := 2, description := "a" },
       { atype := .other, severity := .medium, windowStart := 0, windowEnd := 7,
         score := 3, description := "c" }] }

/-- A generator state with a positive cap of 2. -/
def rgwState : RGState := { maxAnomalies := 2 }

set_option maxRecDepth 40000

/-! ### Supporting lemmas -/

theorem sevOrd_le_three (s : AnomalySeverity) : sevOrd s ≤ 3 := by
  cases s <;> simp [sevOrd]

theorem sevOrd_inj {s t : AnomalySeverity} : sevOrd s = sevOrd t ↔ s = t := by
  cases s <;> cases t <;> simp [sevOrd]

/-- The comparator is exactly the strict order of the sort key. -/
theorem comparator_iff_lt (a b : CAnomaly) :
    anomalySeverityComparator a b = true ↔ rgKey a < rgKey b := by
  have ha := sevOrd_le_three a.severity
  have hb := sevOrd_le_three b.severity
  simp only [anomalySeverityComparator, rgKey, Prod.Lex.lt_iff]
  by_cases hsev : a.severity = b.severity
  · by_cases hscore : a.score = b.score
    · by_cases hwe : a.windowEnd = b.windowEnd
      · simp [hsev, hscore, hwe]
      · simp only [hsev, hscore, hwe, if_neg, if_pos, ne_eq, not_true_eq_false,
          not_false_eq_true, ite_true, ite_false, decide_eq_true_eq]
        constructor
        · intro h
          right
          refine ⟨by simp [hsev], ?_⟩
          right
          refine ⟨by simp [hscore], ?_⟩
          left
          omega
        · rintro (h | ⟨-, (h | ⟨h2, (h | ⟨h3, h4⟩)⟩)⟩)
          · omega
          · simp [hscore] at h
          · omega
          · omega
    · simp only [hsev, hscore, ne_eq, not_true_eq_false, not_false_eq_true,
        ite_true, ite_false, decide_eq_true_eq]
      constructor
      · intro h
        right
        refine ⟨by simp [hsev], ?_⟩
        left
        exact neg_lt_neg h
      · rintro (h | ⟨-, (h | ⟨h2, -⟩)⟩)
        · omega
        · exact neg_lt_neg_iff.mp h
        · exact absurd (neg_injective h2) hscore
  · simp only [hsev, ne_eq, not_false_eq_true, ite_true, decide_eq_true_eq]
    constructor
    · intro h
      left
      omega
    · rintro (h | ⟨h1, -⟩)
      · omega
      · exact absurd (sevOrd_inj.mp (by omega)) hsev

/-- rgLe is the non-strict order of the sort key. -/
theorem rgLe_iff (a b : CAnomaly) : rgLe a b = true ↔ rgKey a ≤ rgKey b := by
  rw [rgLe, Bool.not_eq_true']
  constructor
  · intro h
    by_contra hlt
    rw [not_le] at hlt
    rw [← comparator_iff_lt] at hlt
    rw [hlt] at h
    simp at h
  · intro h
    by_contra hne
    have : anomalySeverityComparator b a = true := by
      cases hcb : anomalySeverityComparator b a
      · exact absurd hcb hne
      · rfl
    rw [comparator_iff_lt] at this
    exact absurd h (not_le_of_lt this)

theorem rgLe_trans (a b c : CAnomaly) (h1 : rgLe a b = true) (h2 : rgLe b c = true) :
    rgLe a c = true := by
  rw [rgLe_iff] at *
  exact le_trans h1 h2

theorem rgLe_total (a b : CAnomaly) : (rgLe a b || rgLe b a) = true := by
  rcases le_total (rgKey a) (rgKey b) with h | h
  · simp [Bool.or_eq_true, rgLe_iff, h]
  · simp [Bool.or_eq_true, rgLe_iff, h]

theorem alistLookup_alistSet_self {b : Type} (l : List (String × b)) (k : String) (v : b) :
    alistLookup (alistSet l k v) k = some v := by
  induction l with
  | nil => simp [alistSet, alistLookup]
  | cons p rest ih =>
    by_cases h : p.1 = k
    · simp [alistSet, h, alistLookup, List.find?]
    · simp only [alistSet, h, ite_false]
      simp only [alistLookup, List.find?] at ih ⊢
      simp [h, ih]

theorem alistSet_alistSet_self {b : Type} (l : List (String × b)) (k : String) (v w : b) :
    alistSet (alistSet l k v) k w = alistSet l k w := by
  induction l with
  | nil => simp [alistSet]
  | cons p rest ih =>
    by_cases h : p.1 = k
    · simp [alistSet, h]
    · simp [alistSet, h, ih]

/-- One step of IpFrequencyDetector::processEntry on an entry whose
message yields an address: the counter is bumped and a hit is emitted
exactly while the bumped counter is at most maxCountForRare = 5. -/
theorem ipProcessEntry_hit (e : LogEntry) (ip : String) (h : extractIp e.message = some ip)
    (counts : List (String × Nat)) :
    ipProcessEntry 5 counts e =
      ((if (alistLookup counts ip).getD 0 + 1 ≤ 5
        then [{ ip := ip, count := (alistLookup counts ip).getD 0 + 1, entry := e }] else []),
       alistSet counts ip ((alistLookup counts ip).getD 0 + 1)) := by
  simp [ipProcessEntry, h]

/-- Folding the detector over n copies of one entry: hits are emitted for
counter values from old+1 up to min (old+n) 5, and the counter ends at
old+n. -/
theorem ipFold_replicate (e : LogEntry) (ip : String) (h : extractIp e.message = some ip) :
    ∀ (n : Nat) (hits : List IpHit) (counts : List (String × Nat)),
      (List.replicate n e).foldl ipStep (hits, counts)
        = (hits ++ (List.range' ((alistLookup counts ip).getD 0 + 1)
              (min ((alistLookup counts ip).getD 0 + n) 5 - (alistLookup counts ip).getD 0)).map
              (fun c => { ip := ip, count := c, entry := e }),
           if n = 0 then counts
           else alistSet counts ip ((alistLookup counts ip).getD 0 + n)) := by
  intro n
  induction n with
  | zero =>
    intro hits counts
    have h0 : min ((alistLookup counts ip).getD 0 + 0) 5 - (alistLookup counts ip).getD 0 = 0 := by
      omega
    simp [h0]
  | succ m ih =>
    intro hits counts
    set k := (alistLookup counts ip).getD 0 with hk
    rw [List.replicate_succ, List.foldl_cons]
    have hstep : ipStep (hits, counts) e
        = (hits ++ (if k + 1 ≤ 5 then [{ ip := ip, count := k + 1, entry := e }] else []),
           alistSet counts ip (k + 1)) := by
      simp [ipStep, ipProcessEntry_hit e ip h counts]
    rw [hstep, ih]
    have hk1 : (alistLookup (alistSet counts ip (k + 1)) ip).getD 0 = k + 1 := by
      rw [alistLookup_alistSet_self]; rfl
    rw [hk1]
    by_cases hm : m = 0
    · subst hm
      by_cases hk5 : k + 1 ≤ 5
      · have e1 : min (k + 1) 5 - (k + 1) = 0 := by omega
        have e2 : min (k + 0 + 1) 5 - k = 1 := by omega
        simp [e1, e2, hk5, List.range']
      · have e1 : min (k + 1) 5 - (k + 1) = 0 := by omega
        have e2 : min (k + 0 + 1) 5 - k = 0 := by omega
        simp [e1, e2, hk5, List.range']
    · have hmne : ¬ (m + 1 = 0) := by omega
      simp only [hm, hmne, ite_false]
      rw [alistSet_alistSet_self]
      by_cases hk5 : k + 1 ≤ 5
      · have e2 : min (k + (m + 1)) 5 - k = (min (k + 1 + m) 5 - (k + 1)) + 1 := by omega
        have e3 : k + 1 + m = k + (m + 1) := by omega
        rw [e2, List.range'_succ, e3]
        simp [hk5]
      · have e1 : min (k + 1 + m) 5 - (k + 1) = 0 := by omega
        have e2 : min (k + (m + 1)) 5 - k = 0 := by omega
        have e3 : k + 1 + m = k + (m + 1) := by omega
        have e4 : min (k + (m + 1)) 5 - (k + 1) = 0 := by omega
        simp [e1, e2, hk5, e3, e4, List.range']

/-- Over the 1000-entry scenario, the detector emits exactly the first
five sightings of each address, frequent and rare alike. -/
theorem ipRunHits_scen :
    ipRunHits ipScenEntries
      = (List.range' 1 5).map ipHit1 ++ (List.range' 1 5).map ipHit7 := by
  have h1 : extractIp (ipEntry "request from 10.0.0.1").message = some "10.0.0.1" := by decide
  have h7 : extractIp (ipEntry "request from 10.0.0.7").message = some "10.0.0.7" := by decide
  have e1 : (List.replicate 995 (ipEntry "request from 10.0.0.1")).foldl ipStep ([], [])
      = ((List.range' 1 5).map ipHit1, [("10.0.0.1", 995)]) := by
    have hgen := ipFold_replicate (ipEntry "request from 10.0.0.1") "10.0.0.1" h1 995 [] []
    simpa [alistLookup, alistSet, ipHit1] using hgen
  have e2 : (List.replicate 5 (ipEntry "request from 10.0.0.7")).foldl ipStep
        ((List.range' 1 5).map ipHit1, [("10.0.0.1", 995)])
      = ((List.range' 1 5).map ipHit1 ++ (List.range' 1 5).map ipHit7,
         [("10.0.0.1", 995), ("10.0.0.7", 5)]) := by
    have hgen := ipFold_replicate (ipEntry "request from 10.0.0.7") "10.0.0.7" h7 5
        ((List.range' 1 5).map ipHit1) [("10.0.0.1", 995)]
    simpa [alistLookup, alistSet, List.find?, ipHit7] using hgen
  simp only [ipRunHits, ipScenEntries, List.foldl_append, e1, e2]

theorem tryParsePattern_source (l : List Char) (e : LogEntry)
    (h : tryParsePattern l = some e) : e.source.isSome = true := by
  unfold tryParsePattern at h
  split at h
  · injection h with h'
    subst h'
    rfl
  · exact Option.noConfusion h

theorem tryParseJsonLine_source (l : List Char) (e : LogEntry)
    (h : (tryParseJsonLine l).1 = some e) : e.source.isSome = true := by
  cases h1 : jsonTsStr l <;> cases h2 : jsonLvlStr l <;> cases h3 : jsonMsgStr l <;>
    simp [tryParseJsonLine, h1, h2, h3] at h
  rename_i tsv lvlv msgv
  cases h4 : jsonTimestampOf tsv <;> simp [h4] at h
  subst h
  rfl

theorem parseLineDetailed_source (line : String) (e : LogEntry)
    (h : (parseLineDetailed line).entry = some e) : e.source.isSome = true := by
  by_cases h1 : trimChars line.data = []
  · simp [parseLineDetailed, h1] at h
  · by_cases h2 : (trimChars line.data).head? = some lbraceChar
    · rcases hj : tryParseJsonLine (trimChars line.data) with ⟨o, err⟩
      cases o with
      | none => simp [parseLineDetailed, h1, h2, hj] at h
      | some e' =>
        simp [parseLineDetailed, h1, h2, hj] at h
        subst h
        exact tryParseJsonLine_source _ _ (by rw [hj])
    · cases hp : tryParsePattern (trimChars line.data) with
      | none => simp [parseLineDetailed, h1, h2, hp] at h
      | some e' =>
        simp [parseLineDetailed, h1, h2, hp] at h
        subst h
        exact tryParsePattern_source _ _ hp

theorem someIfNonempty_ne (l : List Char) (m : String)
    (h : someIfNonempty l = some m) : m ≠ "" := by
  unfold someIfNonempty at h
  split at h
  · exact Option.noConfusion h
  · rename_i hne
    injection h with h'
    subst h'
    intro hc
    exact hne (congrArg String.data hc)

theorem extractMessage_nonempty (l : List Char) (m : String)
    (h : extractMessage l = some m) : m ≠ "" :=
  someIfNonempty_ne _ _ h

theorem tryParsePattern_message (l : List Char) (e : LogEntry)
    (h : tryParsePattern l = some e) : e.message ≠ "" := by
  unfold tryParsePattern at h
  split at h
  · rename_i ts lvl msg hts hlvl hmsg
    injection h with h'
    subst h'
    exact extractMessage_nonempty _ _ hmsg
  · exact Option.noConfusion h

theorem parseLineDetailed_text_message (line : String) (e : LogEntry)
    (hb : (trimChars line.data).head? ≠ some lbraceChar)
    (h : (parseLineDetailed line).entry = some e) : e.message ≠ "" := by
  by_cases h1 : trimChars line.data = []
  · simp [parseLineDetailed, h1] at h
  · cases hp : tryParsePattern (trimChars line.data) with
    | none => simp [parseLineDetailed, h1, hb, hp] at h
    | some e' =>
      simp [parseLineDetailed, h1, hb, hp] at h
      subst h
      exact tryParsePattern_message _ _ hp

theorem mainStep_now_irrel (now now' : Int) (ps : PipelineState) (line : String)
    (h : line = "" ∨ ((parseLineDetailed line).entry).isSome = true) :
    mainStep now ps line = mainStep now' ps line := by
  by_cases hl : line = ""
  · simp [mainStep, hl]
  · rcases h with h | h
    · exact absurd h hl
    · cases hpr : (parseLineDetailed line).entry with
      | none => rw [hpr] at h; exact Bool.noConfusion h
      | some e => simp [mainStep, hl, hpr]

theorem mainStepEntry_htr (ps : PipelineState) (e : LogEntry) :
    (mainStepEntry ps e).haveTimeRange = true := by
  unfold mainStepEntry trackTimeRange
  by_cases h : ps.haveTimeRange <;> simp [h]

theorem mainStep_htr_mono (now : Int) (ps : PipelineState) (line : String)
    (h : ps.haveTimeRange = true) : (mainStep now ps line).haveTimeRange = true := by
  unfold mainStep
  by_cases hl : line = ""
  · simp [hl, h]
  · cases hpr : (parseLineDetailed line).entry with
    | none => simp [hl, hpr, h]
    | some e => simp [hl, hpr, mainStepEntry_htr]

theorem mainStep_init_or_htr (now : Int) (ps : PipelineState) (line : String)
    (h : line = "" ∨ ((parseLineDetailed line).entry).isSome = true) :
    mainStep now ps line = ps ∨ (mainStep now ps line).haveTimeRange = true := by
  by_cases hl : line = ""
  · left; simp [mainStep, hl]
  · rcases h with h | h
    · exact absurd h hl
    · cases hpr : (parseLineDetailed line).entry with
      | none => rw [hpr] at h; exact Bool.noConfusion h
      | some e =>
        right
        simp [mainStep, hl, hpr, mainStepEntry_htr]

theorem foldSteps_now_irrel (lines : List String) (now now' : Int) :
    ∀ ps : PipelineState,
      (∀ l ∈ lines, l = "" ∨ ((parseLineDetailed l).entry).isSome = true) →
      lines.foldl (mainStep now) ps = lines.foldl (mainStep now') ps := by
  induction lines with
  | nil => intro ps _; rfl
  | cons l ls ih =>
    intro ps H
    simp only [List.foldl_cons]
    rw [mainStep_now_irrel now now' ps l (H l (by simp))]
    exact ih _ (fun x hx => H x (by simp [hx]))

theorem foldSteps_init_or_htr (lines : List String) (now : Int) :
    ∀ ps : PipelineState,
      (∀ l ∈ lines, l = "" ∨ ((parseLineDetailed l).entry).isSome = true) →
      (ps = {} ∨ ps.haveTimeRange = true) →
      (lines.foldl (mainStep now) ps = {} ∨
        (lines.foldl (mainStep now) ps).haveTimeRange = true) := by
  induction lines with
  | nil => intro ps _ hp; exact hp
  | cons l ls ih =>
    intro ps H hp
    simp only [List.foldl_cons]
    refine ih _ (fun x hx => H x (by simp [hx])) ?_
    rcases hp with hp | hp
    · subst hp
      rcases mainStep_init_or_htr now {} l (H l (by simp)) with h | h
      · left; exact h
      · right; exact h
    · right; exact mainStep_htr_mono now ps l hp

theorem mainFinish_htr (now now' : Int) (ps : PipelineState)
    (h : ps.haveTimeRange = true) : mainFinish now ps = mainFinish now' ps := by
  unfold mainFinish
  simp [h]

theorem mainFinish_init_anomalies (now : Int) :
    (mainFinish now ({} : PipelineState)).anomalies = [] := by
  have h1 : freqDetectAnomalies dfltFreq ({} : PipelineState).freq = [] := by decide
  have h2 : paDetectAnomalies ({} : PipelineState).pattern = [] := by decide
  have h3 : twDetectAnomalies dfltTW ({} : PipelineState).tw = [] := by decide
  simp [mainFinish, h1, h2, h3]

theorem spikeEvict_len (w now : Int) :
    ∀ (l : List Int) (n : Nat), n = l.length →
      (spikeEvict w now l n).2 = (spikeEvict w now l n).1.length := by
  intro l
  induction l with
  | nil => intro n hn; simp [spikeEvict, hn]
  | cons t rest ih =>
    intro n hn
    by_cases hc : now - t > w
    · simp only [spikeEvict, hc, if_true]
      exact ih (n - 1) (by simp [hn])
    · simp [spikeEvict, hc, hn]

theorem spikeUpdateState_wf (cfg : SpikeConfig) (st : SourceState) (e : LogEntry) (now : Int)
    (h1 : st.currentCount = st.recentEvents.length)
    (h2 : st.baselineCount = st.baselineEvents.length) :
    (spikeUpdateState cfg st e now).currentCount
        = (spikeUpdateState cfg st e now).recentEvents.length
    ∧ (spikeUpdateState cfg st e now).baselineCount
        = (spikeUpdateState cfg st e now).baselineEvents.length := by
  have ha := spikeEvict_len cfg.shortWindow now (st.recentEvents ++ [now]) (st.currentCount + 1)
      (by simp [h1])
  have hb := spikeEvict_len cfg.baselineWindow now (st.baselineEvents ++ [now]) (st.baselineCount + 1)
      (by simp [h2])
  rcases hra : spikeEvict cfg.shortWindow now (st.recentEvents ++ [now]) (st.currentCount + 1)
    with ⟨re, cc⟩
  rcases hrb : spikeEvict cfg.baselineWindow now (st.baselineEvents ++ [now]) (st.baselineCount + 1)
    with ⟨be, bc⟩
  rw [hra] at ha
  rw [hrb] at hb
  unfold spikeUpdateState
  rw [hra, hrb]
  constructor <;> simp_all

theorem spikeWF_lookup (states : List (String × SourceState)) (h : spikeWF states) (src : String) :
    ((alistLookup states src).getD {}).currentCount
        = ((alistLookup states src).getD {}).recentEvents.length
    ∧ ((alistLookup states src).getD {}).baselineCount
        = ((alistLookup states src).getD {}).baselineEvents.length := by
  rcases hfind : states.find? (·.1 = src) with _ | p
  · simp [alistLookup, hfind]
  · have hmem := List.mem_of_find?_eq_some hfind
    have hp := h p hmem
    simp [alistLookup, hfind]
    exact hp

/-- C7: on well-formed detector states, an entry without a source (or
with an empty one) leaves the SpikeDetector untouched and emits nothing;
an entry with non-empty source src emits a FrequencySpike exactly when,
after window eviction, the claim-side ratio
(shortLen/shortWindow)/(longLen/baselineWindow) (1 when the baseline
rate is zero) exceeds spikeThreshold, the short deque holds at least 5
events and the baseline deque at least 10. -/
theorem spike_emission_iff (cfg : SpikeConfig) (states : List (String × SourceState))
    (e : LogEntry) (hwf : spikeWF states) :
    ((e.source = none ∨ e.source = some "") → spikeProcessEntry cfg states e = ([], states))
    ∧ ∀ src, e.source = some src → src ≠ "" →
        ((spikeProcessEntry cfg states e).1 ≠ [] ↔
          (spikeClaimRatio cfg states e src > cfg.spikeThreshold
            ∧ 5 ≤ (spikeUpdateState cfg ((alistLookup states src).getD {}) e
                    e.timestamp).recentEvents.length
            ∧ 10 ≤ (spikeUpdateState cfg ((alistLookup states src).getD {}) e
                    e.timestamp).baselineEvents.length)) := by
  constructor
  · rintro (h | h) <;> simp [spikeProcessEntry, h]
  · intro src hsrc hne
    have hst := spikeWF_lookup states hwf src
    have hupd := spikeUpdateState_wf cfg ((alistLookup states src).getD {}) e e.timestamp
        hst.1 hst.2
    have hred : (spikeProcessEntry cfg states e).1
        = (if spikeIsSpike cfg
              (spikeCalculateStats cfg
                (spikeUpdateState cfg ((alistLookup states src).getD {}) e e.timestamp)
                src e.timestamp)
           then [spikeCreateAnomaly cfg
                  (spikeCalculateStats cfg
                    (spikeUpdateState cfg ((alistLookup states src).getD {}) e e.timestamp)
                    src e.timestamp)
                  (spikeUpdateState cfg ((alistLookup states src).getD {}) e
                    e.timestamp).samples]
           else []) := by
      simp [spikeProcessEntry, hsrc, hne]
    rw [hred]
    have hiff : spikeIsSpike cfg
          (spikeCalculateStats cfg
            (spikeUpdateState cfg ((alistLookup states src).getD {}) e e.timestamp)
            src e.timestamp) = true ↔
        (spikeClaimRatio cfg states e src > cfg.spikeThreshold
          ∧ 5 ≤ (spikeUpdateState cfg ((alistLookup states src).getD {}) e
                  e.timestamp).recentEvents.length
          ∧ 10 ≤ (spikeUpdateState cfg ((alistLookup states src).getD {}) e
                  e.timestamp).baselineEvents.length) := by
      simp only [spikeIsSpike, spikeCalculateStats, spikeClaimRatio, Bool.and_eq_true,
        decide_eq_true_eq]
      rw [hupd.1, hupd.2]
      constructor
      · rintro ⟨⟨hr, hc⟩, hb⟩
        refine ⟨hr, hc, ?_⟩
        by_cases h0 : (spikeUpdateState cfg ((alistLookup states src).getD {}) e
            e.timestamp).baselineEvents.length = 0 <;> simp [h0] at hb <;> try omega
      · rintro ⟨hr, hc, hb⟩
        refine ⟨⟨hr, hc⟩, ?_⟩
        by_cases h0 : (spikeUpdateState cfg ((alistLookup states src).getD {}) e
            e.timestamp).baselineEvents.length = 0 <;> simp [h0] <;> omega
    cases hb : spikeIsSpike cfg
        (spikeCalculateStats cfg
          (spikeUpdateState cfg ((alistLookup states src).getD {}) e e.timestamp)
          src e.timestamp) with
    | false =>
      rw [hb] at hiff
      simp only [Bool.false_eq_true, false_iff] at hiff
      simp [hb, hiff]
    | true =>
      rw [hb] at hiff
      simp [hb]
      exact hiff.mp rfl

theorem spike_emission_iff_witness :
    spikeWF spikeWitnessStates ∧
    (spikeProcessEntry dfltSpike spikeWitnessStates spikeWitnessEntry).1 ≠ [] := by
  have hwf : spikeWF spikeWitnessStates := by unfold spikeWF; decide
  refine ⟨hwf, ?_⟩
  exact ((spike_emission_iff dfltSpike spikeWitnessStates spikeWitnessEntry hwf).2
      "svc" rfl (by decide)).mpr (by refine ⟨?_, ?_, ?_⟩ <;> decide)

/-- mergeSort with rgLe is sorted with respect to the comparator: no
element strictly precedes (per anomalySeverityComparator) an element
placed before it. -/
theorem mergeSort_rgLe_sorted (l : List CAnomaly) :
    (l.mergeSort rgLe).Pairwise (fun a b => rgLe a b = true) :=
  List.sorted_mergeSort (fun a b c => rgLe_trans a b c) rgLe_total l

/-- C8: generateReport stores the incoming Report unchanged (emission
order preserved) and renders a view that is a permutation of its anomaly
list, sorted so that no later element strictly precedes an earlier one
under anomalySeverityComparator (severity desc, score desc, windowEnd
desc, description asc), truncated to maxAnomalies when that cap is
positive; with a positive cap the view's length never exceeds it. -/
theorem rg_generateReport_spec (g : RGState) (rd : CReport) :
    (rgGenerateReport g rd).reportData = rd
    ∧ ∃ s : List CAnomaly,
        s.Perm rd.anomalies
        ∧ s.Pairwise (fun a b => anomalySeverityComparator b a = false)
        ∧ (rgGenerateReport g rd).sortedAnomalies
            = (if 0 < g.maxAnomalies ∧ g.maxAnomalies < s.length
               then s.take g.maxAnomalies else s)
        ∧ (0 < g.maxAnomalies → (rgGenerateReport g rd).sortedAnomalies.length ≤ g.maxAnomalies) := by
  refine ⟨rfl, rd.anomalies.mergeSort rgLe, List.mergeSort_perm rd.anomalies rgLe, ?_, rfl, ?_⟩
  · refine (mergeSort_rgLe_sorted rd.anomalies).imp ?_
    intro a b h
    have : (! anomalySeverityComparator b a) = true := h
    simpa using this
  · intro hpos
    have hms : (rd.anomalies.mergeSort rgLe).length = rd.anomalies.length := by
      simp
    by_cases hc : g.maxAnomalies < rd.anomalies.length
    · have hc' : 0 < g.maxAnomalies ∧ g.maxAnomalies < (rd.anomalies.mergeSort rgLe).length := by
        omega
      simp [rgGenerateReport, hc', hpos, hc, List.length_take]
    · have hc' : ¬ (0 < g.maxAnomalies ∧ g.maxAnomalies < (rd.anomalies.mergeSort rgLe).length) := by
        omega
      simp [rgGenerateReport, hc', hpos, hc]
      omega

theorem rg_generateReport_spec_witness :
    (rgGenerateReport rgwState rgwReport).reportData = rgwReport
    ∧ 0 < rgwState.maxAnomalies
    ∧ (rgGenerateReport rgwState rgwReport).sortedAnomalies.length ≤ rgwState.maxAnomalies := by
  obtain ⟨h1, s, hperm, hsort, heq, hlen⟩ := rg_generateReport_spec rgwState rgwReport
  exact ⟨h1, by decide, hlen (by decide)⟩

/-- C1: the Silence scenario (5 entries at 2024-01-01 00:00:00..04, then
5 at 00:10:00..04) produces no anomaly at all — in particular no Silence
anomaly — because addEvent reconstructs every intermediate empty bucket,
so the history is gapless: its buckets tile [00:00, 00:10) in 60-second
steps and the last one ends exactly at the current bucket's start. -/
theorem tw_scenario_emits_no_silence :
    twDetectAnomalies dfltTW twScenState = []
    ∧ twScenState.history.map (fun b => (b.start, b.stop))
        = (List.range 10).map
            (fun i => ((1704067200 + 60*i : Int), (1704067200 + 60*(i+1) : Int)))
    ∧ twScenState.cur.start = 1704067200 + 600 := by
  refine ⟨by decide, by decide, by decide⟩

/-- C2: on 25 consecutive identical entries the BurstPatternDetector
emits at the 20th AND the 21st entry (two SequenceViolations, not one):
the truncation guard is strict (size > minRepeats), so at exactly 20 the
deque is left untruncated and the 21st entry re-fires before the
truncation to 10 happens. -/
theorem burst_scenario_emits_twice :
    burstScenCounts = List.replicate 19 0 ++ [1, 1, 0, 0, 0, 0] := by decide

/-- C3 (counterexample to the original wording): the frequent address
10.0.0.1 is NOT silent — it is emitted on each of its first five
sightings, so its RarePattern count over the scenario is nonzero. -/
theorem ip_frequent_address_emitted : ipCountFor "10.0.0.1" ≠ 0 := by
  rw [ipCountFor, ipRunHits_scen]
  decide

/-- C3 (amended): the detector emits exactly while the post-increment
global counter is at most 5 — for every address, not only rare ones; on
the 1000-line scenario both 10.0.0.1 and 10.0.0.7 therefore get exactly
5 RarePattern emissions each. -/
theorem ip_emission_first_five_amended :
    (∀ (e : LogEntry) (ip : String), extractIp e.message = some ip →
      ∀ counts : List (String × Nat),
        ((ipProcessEntry 5 counts e).1 ≠ []
          ↔ (alistLookup counts ip).getD 0 + 1 ≤ 5))
    ∧ ipCountFor "10.0.0.1" = 5 ∧ ipCountFor "10.0.0.7" = 5 := by
  refine ⟨?_, ?_, ?_⟩
  · intro e ip h counts
    rw [ipProcessEntry_hit e ip h counts]
    by_cases hc : (alistLookup counts ip).getD 0 + 1 ≤ 5 <;> simp [hc]
  · rw [ipCountFor, ipRunHits_scen]; decide
  · rw [ipCountFor, ipRunHits_scen]; decide

theorem ip_emission_first_five_amended_witness :
    extractIp (ipEntry "request from 10.0.0.1").message = some "10.0.0.1"
    ∧ ((ipProcessEntry 5 [] (ipEntry "request from 10.0.0.1")).1 ≠ []
        ↔ (alistLookup ([] : List (String × Nat)) "10.0.0.1").getD 0 + 1 ≤ 5) :=
  ⟨by decide, ip_emission_first_five_amended.1 (ipEntry "request from 10.0.0.1")
    "10.0.0.1" (by decide) []⟩

/-- C4: a line whose first 19 characters parse to 1999-01-01 00:00:00
(epoch 915148800, before 2000-01-01) is NOT rejected: the parser returns
an entry carrying that pre-2000 timestamp, because isReasonableTime is
never called on the text path. -/
theorem parser_accepts_pre2000_timestamp :
    ((parseLineDetailed c4Line).entry.map (·.timestamp)) = some 915148800
    ∧ isReasonableTime 915148800 = false := by
  refine ⟨by decide, by decide⟩

/-- C5 (counterexample to the original wording): a JSON line whose
message key holds the empty string parses successfully into an entry
with an empty message — the JSON path has no empty-message guard. -/
theorem json_empty_message_accepted :
    ((parseLineDetailed c5JsonLine).entry.map (·.message)) = some "" := by decide

/-- C5 (amended): on the text path an entry's message is never empty (an
empty joined body is a parse failure), but the JSON path accepts an
empty message verbatim. -/
theorem text_message_nonempty_amended :
    (∀ (line : String) (e : LogEntry),
      (trimChars line.data).head? ≠ some lbraceChar →
      (parseLineDetailed line).entry = some e → e.message ≠ "")
    ∧ ((parseLineDetailed c5JsonLine).entry.map (·.message)) = some "" := by
  exact ⟨fun line e hb h => parseLineDetailed_text_message line e hb h, by decide⟩

theorem text_message_nonempty_amended_witness :
    (trimChars c5TextLine.data).head? ≠ some lbraceChar
    ∧ (parseLineDetailed c5TextLine).entry = some c5TextEntry
    ∧ c5TextEntry.message ≠ "" :=
  ⟨by decide, by decide,
   text_message_nonempty_amended.1 c5TextLine c5TextEntry (by decide) (by decide)⟩

/-- C6 (counterexample to the original wording): the pipeline is NOT
independent of the wall clock — a malformed line's anomaly windows are
stamped with the run's current time, so two runs at different instants
serialize different windowStart values for the same input. -/
theorem malformed_window_wallclock_dependent :
    (runPipeline [c6BadLine] 0).anomalies.map (fun a => a.windowStart)
      ≠ (runPipeline [c6BadLine] 1).anomalies.map (fun a => a.windowStart) := by
  have h0 : (runPipeline [c6BadLine] 0).anomalies.map (fun a => a.windowStart)
      = [0] := by decide
  have h1 : (runPipeline [c6BadLine] 1).anomalies.map (fun a => a.windowStart)
      = [1] := by decide
  rw [h0, h1]
  decide

/-- C6 (amended): restricted to inputs with no malformed lines (every
line empty or parseable), the pipeline's anomaly list is independent of
the wall clock: two runs at different instants produce identical ordered
anomaly lists. -/
theorem pipeline_anomalies_deterministic_amended (lines : List String) (now now' : Int)
    (h : ∀ l ∈ lines, l = "" ∨ ((parseLineDetailed l).entry).isSome = true) :
    (runPipeline lines now).anomalies = (runPipeline lines now').anomalies := by
  unfold runPipeline
  rw [foldSteps_now_irrel lines now now' {} h]
  rcases foldSteps_init_or_htr lines now' {} h (Or.inl rfl) with h2 | h2
  · rw [h2, mainFinish_init_anomalies, mainFinish_init_anomalies]
  · rw [mainFinish_htr now now' _ h2]

theorem pipeline_anomalies_deterministic_amended_witness :
    (∀ l ∈ c6GoodLines, l = "" ∨ ((parseLineDetailed l).entry).isSome = true)
    ∧ (runPipeline c6GoodLines 5).anomalies = (runPipeline c6GoodLines 99).anomalies :=
  ⟨by decide, pipeline_anomalies_deterministic_amended c6GoodLines 5 99 (by decide)⟩

/-- C9: every parsed entry carries a present source optional (the text
path substitutes "unknown" when no source token is found, the JSON path
always engages its default); concretely, a line with no source token
parses to source some "unknown". -/
theorem parse_source_always_present :
    (∀ (line : String) (e : LogEntry),
      (parseLineDetailed line).entry = some e → e.source.isSome = true)
    ∧ ((parseLineDetailed c9NoSourceLine).entry.map (·.source)) = some (some "unknown") := by
  exact ⟨fun line e h => parseLineDetailed_source line e h, by decide⟩

theorem parse_source_always_present_witness :
    (parseLineDetailed c5TextLine).entry = some c5TextEntry
    ∧ c5TextEntry.source.isSome = true :=
  ⟨by decide, parse_source_always_present.1 c5TextLine c5TextEntry (by decide)⟩

/-- C10: the SpikeDetector setters clamp their inputs — the stored spike
threshold is max(1.1, v), hence always strictly above 1 and the severity
denominator (threshold − 1) is never zero; the stored sample cap is
max(1, n), hence at least 1. -/
theorem spike_setters_clamped (v : ℚ) (n : Nat) :
    spikeSetThreshold v = max (11/10) v
    ∧ 1 < spikeSetThreshold v
    ∧ spikeSetThreshold v - 1 ≠ 0
    ∧ 1 ≤ spikeSetMaxSampleEvents n := by
  refine ⟨rfl, ?_, ?_, ?_⟩
  · have : (1 : ℚ) < 11/10 := by norm_num
    exact lt_of_lt_of_le this (le_max_left _ _)
  · have h : (1 : ℚ) < spikeSetThreshold v :=
      lt_of_lt_of_le (by norm_num) (le_max_left _ _)
    intro hc
    have : spikeSetThreshold v = 1 := by linarith [sub_eq_zero.mp hc]
    rw [this] at h
    exact lt_irrefl 1 h
  · exact le_max_left _ _
